import Mathlib

/-!
Verification of the xQuant trading platform core against its specification.

Shallow embedding of the source's data model and operations:
`f64` money/price/quantity values are modelled as `ℚ` (exact arithmetic on
the rational literals the claims use), millisecond timestamps as `ℤ`,
fallible operations as `Except TradingError`, hash maps as association
lists with first-match lookup and replace-or-append insertion, and each
long-running algorithm's monitoring loop as an explicit step function over
its captured state, driven by a list of externally observed events
(exchange poll results, submit outcomes).
-/

namespace XQuant

/-- models/order.rs `OrderSide`. -/
inductive OrderSide where
  | Buy
  | Sell
deriving DecidableEq, Repr

/-- models/order.rs `OrderType`. -/
inductive OrderType where
  | Market
  | Limit
  | StopLoss
  | StopLimit
  | TrailingStop
  | Iceberg
  | VWAP
  | TWAP
deriving DecidableEq, Repr

/-- models/order.rs `OrderStatus`. -/
inductive OrderStatus where
  | New
  | PartiallyFilled
  | Filled
  | Cancelled
  | Rejected
  | Expired
deriving DecidableEq, Repr

/-- error.rs `TradingError` (the variants the modelled code constructs;
payload strings kept where the source has them). `InsufficientData` is
referenced by the indicator sources. -/
inductive TradingError where
  | OrderNotFound (id : String)
  | DataNotFound (msg : String)
  | InvalidParameter (msg : String)
  | ExecutionError (msg : String)
  | AlreadyRunning (msg : String)
  | ExchangeError (msg : String)
  | InsufficientBalance
  | RiskLimitExceeded (msg : String)
  | InsufficientData
  | Unknown (msg : String)
deriving DecidableEq, Repr

/-- models/order.rs `Order`. `OrderId` is its inner `String`; `created_at`
is a caller-supplied timestamp (the source reads the wall clock in
`Order::new`; the backtest result never depends on it). -/
structure Order where
  id : String
  symbol : String
  side : OrderSide
  order_type : OrderType
  quantity : ℚ
  price : ℚ
  stop_price : Option ℚ := none
  time_in_force : String := "GTC"
  created_at : ℤ := 0
  client_order_id : Option String := none
  iceberg_qty : Option ℚ := none
  trailing_delta : Option ℚ := none
  execution_interval : Option ℤ := none
  target_percentage : Option ℚ := none
deriving DecidableEq, Repr

/-- models/order.rs `Order::new` (id assigned later by the exchange;
`created_at` passed in place of the source's wall-clock read). -/
def Order.mk' (symbol : String) (side : OrderSide) (order_type : OrderType)
    (quantity price : ℚ) (created_at : ℤ := 0) : Order :=
  { id := "", symbol := symbol, side := side, order_type := order_type,
    quantity := quantity, price := price, created_at := created_at }

/-- models/market_data.rs `MarketData`. -/
structure MarketData where
  symbol : String
  timestamp : ℤ
  open_ : ℚ
  high : ℚ
  low : ℚ
  close : ℚ
  volume : ℚ
deriving DecidableEq, Repr

/-! ### Association lists standing for the source's `HashMap`s

Lookup returns the first binding; insertion replaces the first binding of
the key in place, else appends. Keys stay unique when built through
`alistInsert`, matching `HashMap` semantics (iteration order of the Rust
map is NOT fixed; where the source iterates a map, the embedding makes
the order an explicit parameter or documents the choice). -/

def alistGet {β : Type} (m : List (String × β)) (k : String) : Option β :=
  (m.find? (fun p => p.1 = k)).map Prod.snd

def alistInsert {β : Type} (m : List (String × β)) (k : String) (v : β) :
    List (String × β) :=
  match m with
  | [] => [(k, v)]
  | p :: rest => if p.1 = k then (k, v) :: rest else p :: alistInsert rest k v

/-- `*map.entry(k).or_insert(0.0) += d` on a balance map. -/
def alistAdd (m : List (String × ℚ)) (k : String) (d : ℚ) : List (String × ℚ) :=
  match alistGet m k with
  | some v => alistInsert m k (v + d)
  | none => alistInsert m k d

/-! ## C9 — signals/signal_types.rs `SignalType::from_strength` -/

/-- signals/signal_types.rs `SignalType`. -/
inductive SignalType where
  | Buy
  | StrongBuy
  | Sell
  | StrongSell
  | ReduceLong
  | ReduceShort
  | CloseLong
  | CloseShort
  | Neutral
deriving DecidableEq, Repr

/-- signals/signal_types.rs `SignalType::from_strength`: the source's match
arms in order, each a strict comparison (`s if s > 0.7`, `s if s > 0.3`,
`s if s > 0.0`, `s if s < -0.7`, `s if s < -0.3`, `s if s < 0.0`, `_`). -/
def SignalType.from_strength (s : ℚ) : SignalType :=
  if s > 7/10 then .StrongBuy
  else if s > 3/10 then .Buy
  else if s > 0 then .ReduceShort
  else if s < -(7/10) then .StrongSell
  else if s < -(3/10) then .Sell
  else if s < 0 then .ReduceLong
  else .Neutral

/-! ## C3 — indicators/moving_averages.rs -/

/-- indicators/mod.rs `IndicatorSignal` (the `message` field is display
text; dropped). -/
structure IndicatorSignal where
  name : String
  strength : ℚ
deriving DecidableEq, Repr

/-- indicators/moving_averages.rs `ExponentialMovingAverage` state. -/
structure ExponentialMovingAverage where
  period : ℕ
  values : List ℚ
  current_ema : Option ℚ
  alpha : ℚ
  count : ℕ
deriving DecidableEq, Repr

/-- `ExponentialMovingAverage::new`. -/
def ExponentialMovingAverage.new (period : ℕ) : ExponentialMovingAverage :=
  { period := period, values := [], current_ema := none,
    alpha := 2 / ((period : ℚ) + 1), count := 0 }

/-- `ExponentialMovingAverage::update`: push the price, trim the deque to
`2·period`, seed with the SMA at `count = period`, else apply the EMA
recursion for `count > period`. -/
def ExponentialMovingAverage.update (e : ExponentialMovingAverage) (price : ℚ) :
    ExponentialMovingAverage :=
  let values0 := e.values ++ [price]
  let values := if values0.length > e.period * 2 then values0.tail else values0
  let count := e.count + 1
  if count = e.period then
    { e with values := values, count := count,
             current_ema := some (values.sum / (e.period : ℚ)) }
  else if count > e.period then
    match e.current_ema with
    | some prev =>
        { e with values := values, count := count,
                 current_ema := some (price * e.alpha + prev * (1 - e.alpha)) }
    | none => { e with values := values, count := count }
  else { e with values := values, count := count }

/-- `ExponentialMovingAverage::is_ready`. -/
def ExponentialMovingAverage.is_ready (e : ExponentialMovingAverage) : Bool :=
  e.current_ema.isSome

/-- `ExponentialMovingAverage::calculate`. -/
def ExponentialMovingAverage.calculate (e : ExponentialMovingAverage) :
    Except TradingError ℚ :=
  match e.current_ema with
  | some v => .ok v
  | none => .error .InsufficientData

/-- indicators/moving_averages.rs `MovingAverageCrossover` over two EMAs
(the `with_ema` constructor the claim uses). `last_fast`/`last_slow` are
the fields `calculate` compares against; the source initializes them to
`None` and `reset` sets them back to `None`. -/
structure MovingAverageCrossover where
  fast_ma : ExponentialMovingAverage
  slow_ma : ExponentialMovingAverage
  last_fast : Option ℚ
  last_slow : Option ℚ
deriving DecidableEq, Repr

/-- `MovingAverageCrossover::with_ema`. -/
def MovingAverageCrossover.with_ema (fast_period slow_period : ℕ) :
    MovingAverageCrossover :=
  { fast_ma := .new fast_period, slow_ma := .new slow_period,
    last_fast := none, last_slow := none }

/-- `MovingAverageCrossover::update`: feeds both MAs; nothing else is
written (in particular `last_fast`/`last_slow` are untouched, exactly as
in the source). -/
def MovingAverageCrossover.update (c : MovingAverageCrossover) (price : ℚ) :
    MovingAverageCrossover :=
  { c with fast_ma := c.fast_ma.update price, slow_ma := c.slow_ma.update price }

/-- `MovingAverageCrossover::is_ready`. -/
def MovingAverageCrossover.is_ready (c : MovingAverageCrossover) : Bool :=
  c.fast_ma.is_ready && c.slow_ma.is_ready

/-- `MovingAverageCrossover::calculate`: when ready, compares the current
MA values against `last_fast`/`last_slow` (golden cross at strength `0.8`,
death cross at `-0.8`) and returns `fast - slow` as the indicator value. -/
def MovingAverageCrossover.calculate (c : MovingAverageCrossover) :
    Except TradingError (ℚ × List IndicatorSignal) :=
  if ¬ c.is_ready then .error .InsufficientData
  else
    match c.fast_ma.calculate, c.slow_ma.calculate with
    | .ok fast_value, .ok slow_value =>
        let signals : List IndicatorSignal :=
          match c.last_fast, c.last_slow with
          | some prev_fast, some prev_slow =>
              if prev_fast ≤ prev_slow ∧ fast_value > slow_value then
                [{ name := "Golden Cross", strength := 8/10 }]
              else if prev_fast ≥ prev_slow ∧ fast_value < slow_value then
                [{ name := "Death Cross", strength := -(8/10) }]
              else []
          | _, _ => []
        .ok (fast_value - slow_value, signals)
    | .error e, _ => .error e
    | _, .error e => .error e

/-- Feeding a close series through `MovingAverageCrossover::update`. -/
def MovingAverageCrossover.feed (c : MovingAverageCrossover) (closes : List ℚ) :
    MovingAverageCrossover :=
  closes.foldl MovingAverageCrossover.update c

/-! ## C1 — order_core/manager.rs `OrderManager::create_order`

The exchange is abstracted as the outcome of its `submit_order` call (a
function of the submitted order), the UUID generator as a supplied fresh
client id, and the repository as `InMemoryOrderRepository`'s two maps
(order_core/repository.rs). -/

/-- order_core/repository.rs `InMemoryOrderRepository`:
`orders : OrderId.0 → Order` and `client_id_index : client_order_id →
OrderId.0`. -/
structure InMemoryOrderRepository where
  orders : List (String × Order)
  client_id_index : List (String × String)
deriving DecidableEq, Repr

/-- `InMemoryOrderRepository::new`. -/
def InMemoryOrderRepository.new : InMemoryOrderRepository :=
  { orders := [], client_id_index := [] }

/-- `InMemoryOrderRepository::save`: index the client id when present and
insert the order under `order.id.0`. -/
def InMemoryOrderRepository.save (r : InMemoryOrderRepository) (o : Order) :
    InMemoryOrderRepository :=
  let idx := match o.client_order_id with
    | some cid => alistInsert r.client_id_index cid o.id
    | none => r.client_id_index
  { orders := alistInsert r.orders o.id o, client_id_index := idx }

/-- `InMemoryOrderRepository::update`: fails `OrderNotFound` when the id
is absent, else replaces the order and refreshes the client-id index. -/
def InMemoryOrderRepository.update (r : InMemoryOrderRepository) (o : Order) :
    Except TradingError InMemoryOrderRepository :=
  if (alistGet r.orders o.id).isNone then .error (.OrderNotFound o.id)
  else
    let idx := match o.client_order_id with
      | some cid => alistInsert r.client_id_index cid o.id
      | none => r.client_id_index
    .ok { orders := alistInsert r.orders o.id o, client_id_index := idx }

/-- order_core/manager.rs `create_order`'s validator loop: first failure
short-circuits. -/
def runValidators (validators : List (Order → Except TradingError Unit))
    (o : Order) : Except TradingError Unit :=
  match validators with
  | [] => .ok ()
  | v :: rest =>
      match v o with
      | .ok _ => runValidators rest o
      | .error e => .error e

/-- order_core/manager.rs `create_order` step (2): assign the generated
UUID as client id when absent. -/
def OrderManager.assignClientId (o : Order) (fresh_client_id : String) : Order :=
  if o.client_order_id.isNone then
    { o with client_order_id := some fresh_client_id } else o

/-- order_core/manager.rs `OrderManager::create_order`: (1) validate;
(2) assign `fresh_client_id` when `client_order_id` is absent; (3) save
the provisional record; (4) submit (`submit` is the exchange's response
to the submitted order); (5) on success update the record with the
assigned id. Each step's `?` returns the error with the repository as it
stands at that point — there is no rollback between (3) and (4). -/
def OrderManager.create_order
    (validators : List (Order → Except TradingError Unit))
    (fresh_client_id : String)
    (submit : Order → Except TradingError String)
    (r : InMemoryOrderRepository) (o : Order) :
    Except TradingError String × InMemoryOrderRepository :=
  match runValidators validators o with
  | .error e => (.error e, r)
  | .ok _ =>
      let o' := OrderManager.assignClientId o fresh_client_id
      let r1 := r.save o'
      match submit o' with
      | .error e => (.error e, r1)
      | .ok order_id =>
          match r1.update { o' with id := order_id } with
          | .error e => (.error e, r1)
          | .ok r2 => (.ok order_id, r2)

/-! ## C7 — core/twap_splitter.rs `TwapSplitter::start` -/

/-- The `start()` slice loop, under the claim's conditions: every child
submission succeeds and the run completes (while `start` runs it holds
`&mut self`, so no concurrent `stop()` can clear `is_active`).
`slicesLeft` counts iterations still to run (`i == num_slices - 1` ⟺
`slicesLeft = 1`, the branch taking `remaining` instead of
`min slice_quantity remaining`). After a submission the loop breaks when
the remaining quantity reaches zero. Returns (child quantities in
submission order, executed_quantity). -/
def twapLoop (slice_quantity : ℚ) : ℕ → ℚ → List ℚ × ℚ
  | 0, _ => ([], 0)
  | k + 1, remaining =>
      let adjusted := if k = 0 then remaining else min slice_quantity remaining
      if 0 < adjusted then
        if remaining - adjusted ≤ 0 then ([adjusted], adjusted)
        else
          let rest := twapLoop slice_quantity k (remaining - adjusted)
          (adjusted :: rest.1, adjusted + rest.2)
      else
        if remaining ≤ 0 then ([], 0)
        else twapLoop slice_quantity k remaining

/-- core/twap_splitter.rs `TwapSplitter::start`: computes
`slice_quantity = total_quantity / num_slices`, runs the slice loop from
`remaining = total_quantity`, then clears `is_active`. Returns (child
quantities, executed_quantity, is_active). -/
def TwapSplitter.start (total_quantity : ℚ) (num_slices : ℕ) :
    List ℚ × ℚ × Bool :=
  let slice_quantity := total_quantity / (num_slices : ℚ)
  let r := twapLoop slice_quantity num_slices total_quantity
  (r.1, r.2, false)

/-! ## C6 — core/trailing_stop_manager.rs monitoring loop -/

/-- The state the spawned monitoring task reads and writes: the fresh
`Arc` cells created in `start()` (`is_active`, `highest_price`,
`lowest_price`, `executed`) plus the task-local `activated` flag. -/
structure TrailLoopState where
  activated : Bool
  is_active : Bool
  highest_price : ℚ
  lowest_price : ℚ
  executed : Bool
deriving DecidableEq, Repr

/-- `TrailingStopManager::start`'s initialization of the loop state:
trackers seeded from the initial market price, `activated` iff no
activation price was given. -/
def TrailLoopState.init (initial_price : ℚ) (activation_price : Option ℚ) :
    TrailLoopState :=
  { activated := activation_price.isNone, is_active := true,
    highest_price := initial_price, lowest_price := initial_price,
    executed := false }

/-- The `stop_price` the loop computes from the current trackers and the
fixed `trailing_delta`: `Buy` side uses
`highest − highest·(delta/100)`, `Sell` side `lowest + lowest·(delta/100)`. -/
def trailStopPrice (side : OrderSide) (trailing_delta : ℚ)
    (st : TrailLoopState) : ℚ :=
  match side with
  | .Buy => st.highest_price - st.highest_price * (trailing_delta / 100)
  | .Sell => st.lowest_price + st.lowest_price * (trailing_delta / 100)

/-- The loop's activation check: when not yet activated with an
activation price set, a price failing the activation condition skips the
tick (`continue`, modelled as `none`); when not activated and no
activation price exists the source's `if let` falls through with
`activated` left false. -/
def trailActivationGate (side : OrderSide) (activation_price : Option ℚ)
    (st : TrailLoopState) (p : ℚ) : Option TrailLoopState :=
  match st.activated, activation_price with
  | false, some ap =>
      if (side = OrderSide.Buy ∧ p ≤ ap) ∨ (side = OrderSide.Sell ∧ ap ≤ p)
      then some { st with activated := true } else none
  | _, _ => some st

/-- The loop's tracker updates: raise `highest_price` on a strictly
higher price, lower `lowest_price` on a strictly lower one. -/
def trailTrackers (st : TrailLoopState) (p : ℚ) : TrailLoopState :=
  { st with
    highest_price := if st.highest_price < p then p else st.highest_price,
    lowest_price := if p < st.lowest_price then p else st.lowest_price }

/-- One iteration of the monitoring loop (core/trailing_stop_manager.rs
`start`, spawned task). Inputs: the `get_market_data` outcome (`none` =
`Err`, the tick is skipped) and whether a triggered `submit_order`
succeeds (on success the loop records execution and stops itself). -/
def trailTick (side : OrderSide) (trailing_delta : ℚ)
    (activation_price : Option ℚ) (st : TrailLoopState)
    (priceResult : Option ℚ) (submitOk : Bool) : TrailLoopState :=
  if st.is_active = false then st
  else
    match priceResult with
    | none => st
    | some p =>
        match trailActivationGate side activation_price st p with
        | none => st
        | some st1 =>
            let st2 := trailTrackers st1 p
            let stop_triggered : Bool :=
              match side with
              | OrderSide.Buy => decide (p ≤ trailStopPrice side trailing_delta st2)
              | OrderSide.Sell => decide (trailStopPrice side trailing_delta st2 ≤ p)
            if stop_triggered ∧ st2.executed = false then
              if submitOk then { st2 with executed := true, is_active := false }
              else st2
            else st2

/-- The sequence of loop states over a run: the state before the first
tick, then after each tick. -/
def trailTrace (side : OrderSide) (trailing_delta : ℚ)
    (activation_price : Option ℚ) (st0 : TrailLoopState) :
    List (Option ℚ × Bool) → List TrailLoopState
  | [] => [st0]
  | inp :: rest =>
      st0 :: trailTrace side trailing_delta activation_price
        (trailTick side trailing_delta activation_price st0 inp.1 inp.2) rest

/-! ## C5 / C10 — core/iceberg_manager.rs

`self`'s fields and the monitoring task's state are separate: `start()`
creates FRESH `Arc` cells (`is_active := true`, `executed_quantity := 0`,
`current_order_id := None`) and the spawned loop captures and mutates
only those cells (plus the by-value copies of `total_quantity`,
`display_quantity`, `limit_price`, which no path mutates after clamping),
never `self`. The exchange interaction is driven by external events: each
poll's `get_order_status` outcome and each `submit_order`'s outcome (an
order id on success); `cancel_order` results are ignored by the source
(`let _ = ...`), so they carry no state. `submitted` instruments the run
with every child order submitted (id ↦ quantity), which is how the
"quantity of the currently live child" is read off. -/

/-- core/iceberg_manager.rs `IcebergManager`'s own (struct) fields. -/
structure IcebergManager where
  symbol : String
  side : OrderSide
  total_quantity : ℚ
  limit_price : ℚ
  display_quantity : ℚ
  executed_quantity : ℚ
  is_active : Bool
  current_order_id : Option String
deriving DecidableEq, Repr

/-- `IcebergManager::new`: clamps `display_quantity` to `total_quantity`. -/
def IcebergManager.new (symbol : String) (side : OrderSide)
    (total_quantity limit_price display_quantity : ℚ) : IcebergManager :=
  { symbol := symbol, side := side, total_quantity := total_quantity,
    limit_price := limit_price,
    display_quantity := min display_quantity total_quantity,
    executed_quantity := 0, is_active := false, current_order_id := none }

/-- `IcebergManager::status`. -/
def IcebergManager.status (m : IcebergManager) : Bool × ℚ × ℚ :=
  (m.is_active, m.executed_quantity, m.total_quantity)

/-- `IcebergManager::submit_visible_portion`: when nothing remains,
deactivates and submits nothing; otherwise submits
`min display_quantity remaining` as a limit order (`submitResult` is the
exchange's response: an id on success). On success `current_order_id` is
set; with the submission (id, quantity) returned for instrumentation. -/
def IcebergManager.submit_visible_portion (m : IcebergManager)
    (submitResult : Option String) :
    Except TradingError (IcebergManager × Option (String × ℚ)) :=
  let remaining := m.total_quantity - m.executed_quantity
  if remaining ≤ 0 then .ok ({ m with is_active := false }, none)
  else
    let next_quantity := min m.display_quantity remaining
    match submitResult with
    | some order_id =>
        .ok ({ m with current_order_id := some order_id },
             some (order_id, next_quantity))
    | none => .error (.ExchangeError "submit failed")

/-- The fresh `Arc` cells `start()` creates for the spawned loop
(iceberg_manager.rs lines 89–94): note `current_order_id` starts `None` —
the id of the already-submitted first child is NOT copied in. -/
structure IcebergLoopCells where
  is_active : Bool
  executed_quantity : ℚ
  current_order_id : Option String
deriving DecidableEq, Repr

/-- A running iceberg execution: the struct, the loop's cells, and the
instrumented list of submitted child orders (id ↦ quantity). -/
structure IcebergRun where
  mgr : IcebergManager
  cells : IcebergLoopCells
  submitted : List (String × ℚ)
deriving DecidableEq, Repr

/-- `IcebergManager::start`: fails `AlreadyRunning` when active; resets
`executed_quantity`/`current_order_id`, submits the first visible portion
(propagating its error), then spawns the loop with fresh cells. -/
def IcebergManager.start (m : IcebergManager) (submitResult : Option String) :
    Except TradingError IcebergRun :=
  if m.is_active then .error (.AlreadyRunning "Iceberg execution already running")
  else
    let m1 := { m with is_active := true, executed_quantity := 0,
                       current_order_id := none }
    match m1.submit_visible_portion submitResult with
    | .error e => .error e
    | .ok (m2, sub) =>
        .ok { mgr := m2,
              cells := { is_active := true, executed_quantity := 0,
                         current_order_id := none },
              submitted := sub.toList }

/-- One iteration of the spawned monitoring loop (lines 96–172): runs only
while the CELLS' `is_active` holds and only when the CELLS'
`current_order_id` is set; on `Filled` adds `display_quantity` (not the
child's own quantity) to the cells' executed counter, finishing when it
reaches `total_quantity`, else resubmits `min display remaining`; on
`Cancelled`/`Rejected`/`Expired` resubmits without counting; other
statuses and failed status fetches leave everything unchanged. -/
def IcebergRun.poll (r : IcebergRun) (statusResult : Option OrderStatus)
    (submitResult : Option String) : IcebergRun :=
  if r.cells.is_active = false then r
  else
    match r.cells.current_order_id with
    | none => r
    | some _ =>
        match statusResult with
        | none => r
        | some status =>
            match status with
            | .Filled =>
                let executed := r.cells.executed_quantity + r.mgr.display_quantity
                if r.mgr.total_quantity ≤ executed then
                  { r with cells := { r.cells with
                      executed_quantity := executed, is_active := false } }
                else
                  let remaining := r.mgr.total_quantity - executed
                  if 0 < remaining then
                    let next_quantity := min r.mgr.display_quantity remaining
                    match submitResult with
                    | some new_id =>
                        { r with
                          cells := { r.cells with
                            executed_quantity := executed,
                            current_order_id := some new_id },
                          submitted := r.submitted ++ [(new_id, next_quantity)] }
                    | none =>
                        { r with cells := { r.cells with
                            executed_quantity := executed } }
                  else
                    { r with cells := { r.cells with
                        executed_quantity := executed } }
            | .Cancelled | .Rejected | .Expired =>
                let remaining := r.mgr.total_quantity - r.cells.executed_quantity
                if 0 < remaining then
                  let next_quantity := min r.mgr.display_quantity remaining
                  match submitResult with
                  | some new_id =>
                      { r with
                        cells := { r.cells with current_order_id := some new_id },
                        submitted := r.submitted ++ [(new_id, next_quantity)] }
                  | none => r
                else r
            | _ => r

/-- `IcebergManager::stop`: a no-op when inactive; otherwise clears the
STRUCT's `is_active` and requests cancellation of the struct's current
child (the exchange call has no state effect and its result is ignored). -/
def IcebergRun.stop (r : IcebergRun) : IcebergRun :=
  if r.mgr.is_active = false then r
  else { r with mgr := { r.mgr with is_active := false } }

/-- `IcebergManager::update_price`: always records the new limit price;
when active, cancels the current child (result ignored) and resubmits via
`submit_visible_portion` — on submission failure the error surfaces with
the struct as already mutated. -/
def IcebergRun.update_price (r : IcebergRun) (new_price : ℚ)
    (submitResult : Option String) : IcebergRun :=
  let m := { r.mgr with limit_price := new_price }
  if m.is_active then
    match m.submit_visible_portion submitResult with
    | .error _ => { r with mgr := m }
    | .ok (m2, sub) =>
        { r with mgr := m2, submitted := r.submitted ++ sub.toList }
  else { r with mgr := m }

/-- External events of a running iceberg execution. -/
inductive IcebergEvent where
  | poll (statusResult : Option OrderStatus) (submitResult : Option String)
  | updatePrice (new_price : ℚ) (submitResult : Option String)
  | stopCmd
deriving DecidableEq, Repr

def icebergStep (r : IcebergRun) : IcebergEvent → IcebergRun
  | .poll s sub => r.poll s sub
  | .updatePrice p sub => r.update_price p sub
  | .stopCmd => r.stop

def icebergExec (r : IcebergRun) (evs : List IcebergEvent) : IcebergRun :=
  evs.foldl icebergStep r

/-- The state `start` produces on a successful first submission (proved
equal to `IcebergManager.start`'s result below). -/
def icebergStartedRun (symbol : String) (side : OrderSide)
    (total limit display : ℚ) (oid : String) : IcebergRun :=
  { mgr := { symbol := symbol, side := side, total_quantity := total,
             limit_price := limit, display_quantity := min display total,
             executed_quantity := 0, is_active := true,
             current_order_id := some oid },
    cells := { is_active := true, executed_quantity := 0,
               current_order_id := none },
    submitted := [(oid, min (min display total) total)] }

/-- The quantity of the child order a (possibly absent) order id
designates, read from the instrumented submissions. -/
def IcebergRun.designatedQty (r : IcebergRun) (c : Option String) : ℚ :=
  match c with
  | none => 0
  | some oid => (alistGet r.submitted oid).getD 0

/-- The inductive invariant of an iceberg run: the struct's total is the
run's total, neither executed counter ever advances (the loop's own
order-id cell is never populated, so the `Filled` branch is unreachable),
the loop's order-id cell stays empty, and every submitted child's
quantity is at most the total. -/
def IcebergInv (total : ℚ) (r : IcebergRun) : Prop :=
  r.mgr.total_quantity = total ∧
  r.mgr.executed_quantity = 0 ∧ r.cells.executed_quantity = 0 ∧
  r.cells.current_order_id = none ∧ ∀ p ∈ r.submitted, p.2 ≤ total

/-! ## C2 / C4 / C8 — backtest/engine.rs `BacktestEngine`

The engine's state that `run` threads: balances, resting orders, trades,
strategies and the order-id counter. Strategies (`Vec<Box<dyn Strategy>>`)
are embedded as a list of states of one type `σ` together with the trait
methods (`update`, `get_orders`) as explicit functions. The `HashMap`
holding per-symbol bar series is an association list; the ORDER in which
`run` enumerates its keys to build the timeline (`self.market_data.keys()`,
whose order Rust's `HashMap` does not fix) is the explicit
`symbol_order` parameter. The resting-order map is modelled in insertion
order. -/

/-- models/trade.rs `Trade` (the fields engine.rs constructs). -/
structure Trade where
  id : String
  symbol : String
  price : ℚ
  quantity : ℚ
  timestamp : ℤ
  order_id : String
  side : OrderSide
deriving DecidableEq, Repr

/-- backtest/result.rs `BacktestResult`. -/
structure BacktestResult where
  start_time : ℤ
  end_time : ℤ
  initial_balance : List (String × ℚ)
  final_balance : List (String × ℚ)
  initial_value : ℚ
  final_value : ℚ
  profit : ℚ
  profit_percentage : ℚ
  trades : List Trade
  fee_paid : ℚ
deriving DecidableEq, Repr

/-- strategies/mod.rs `Strategy`'s methods for a strategy-state type `σ`:
`update(&mut self, MarketData)` and `get_orders(&mut self)` (drains). -/
structure StrategyOps (σ : Type) where
  update : σ → MarketData → Except TradingError σ
  get_orders : σ → Except TradingError (σ × List Order)

/-- The engine fields `run` mutates (strategies are threaded alongside). -/
structure EngineState where
  current_balance : List (String × ℚ)
  orders : List (String × Order)
  trades : List Trade
  order_id_counter : ℕ
deriving DecidableEq, Repr

/-- engine.rs `BacktestEngine::get_current_market_data`: linear scan of
the symbol's (ascending-sorted) series returning the FIRST bar with
`timestamp ≤ time`; `DataNotFound` when the symbol is missing or no bar
qualifies. -/
def BacktestEngine.get_current_market_data
    (market_data : List (String × List MarketData)) (symbol : String)
    (time : ℤ) : Except TradingError MarketData :=
  match alistGet market_data symbol with
  | some data_series =>
      match data_series.find? (fun d => decide (d.timestamp ≤ time)) with
      | some d => .ok d
      | none => .error (.DataNotFound ("No data for " ++ symbol))
  | none => .error (.DataNotFound ("No data series for " ++ symbol))

/-- engine.rs `BacktestEngine::generate_order_id`: increments the counter
and renders `backtest-<counter>`. -/
def BacktestEngine.generate_order_id (counter : ℕ) : String × ℕ :=
  ("backtest-" ++ toString (counter + 1), counter + 1)

/-- engine.rs `BacktestEngine::execute_trade`: base/quote split at byte 3
of the symbol; Buy credits base `q`, debits quote `q·p·(1+fee)`; Sell
mirrors with `(1−fee)`; appends the trade `trade-<n>` stamped with the
timeline time. -/
def BacktestEngine.execute_trade (fee_rate : ℚ) (st : EngineState)
    (o : Order) (price quantity : ℚ) (time : ℤ) : EngineState :=
  let base_currency := o.symbol.take 3
  let quote_currency := o.symbol.drop 3
  let bal :=
    match o.side with
    | .Buy =>
        alistAdd (alistAdd st.current_balance base_currency quantity)
          quote_currency (-(quantity * price * (1 + fee_rate)))
    | .Sell =>
        alistAdd (alistAdd st.current_balance base_currency (-quantity))
          quote_currency (quantity * price * (1 - fee_rate))
  { st with
    current_balance := bal,
    trades := st.trades ++
      [{ id := "trade-" ++ toString (st.trades.length + 1),
         symbol := o.symbol, price := price, quantity := quantity,
         timestamp := time, order_id := o.id, side := o.side }] }

/-- engine.rs `BacktestEngine::process_order`: assign `backtest-<n>`,
fetch the bar, verify the relevant balance side (quote ≥
`q·price·(1+fee)` for Buy, base ≥ `q` for Sell — `InsufficientBalance`
otherwise, PROPAGATED to the caller), then fill Market at
`close·(1±slippage)`, fill or rest Limit against low/high, and rest any
other type. -/
def BacktestEngine.process_order (market_data : List (String × List MarketData))
    (fee_rate slippage : ℚ) (st : EngineState) (o : Order) (time : ℤ) :
    Except TradingError EngineState :=
  let (order_id, counter) := BacktestEngine.generate_order_id st.order_id_counter
  let o := { o with id := order_id }
  let st := { st with order_id_counter := counter }
  match BacktestEngine.get_current_market_data market_data o.symbol time with
  | .error e => .error e
  | .ok bar =>
      let balance_check : Except TradingError Unit :=
        match o.side with
        | .Buy =>
            let quote_currency := o.symbol.drop 3
            let required_balance := o.quantity * o.price * (1 + fee_rate)
            match alistGet st.current_balance quote_currency with
            | some balance =>
                if balance < required_balance then .error .InsufficientBalance
                else .ok ()
            | none => .error .InsufficientBalance
        | .Sell =>
            let base_currency := o.symbol.take 3
            match alistGet st.current_balance base_currency with
            | some balance =>
                if balance < o.quantity then .error .InsufficientBalance
                else .ok ()
            | none => .error .InsufficientBalance
      match balance_check with
      | .error e => .error e
      | .ok _ =>
          match o.order_type with
          | .Market =>
              let executed_price :=
                match o.side with
                | .Buy => bar.close * (1 + slippage)
                | .Sell => bar.close * (1 - slippage)
              .ok (BacktestEngine.execute_trade fee_rate st o executed_price
                o.quantity time)
          | .Limit =>
              let can_execute : Bool :=
                match o.side with
                | .Buy => decide (bar.low ≤ o.price)
                | .Sell => decide (o.price ≤ bar.high)
              if can_execute then
                .ok (BacktestEngine.execute_trade fee_rate st o o.price
                  o.quantity time)
              else .ok { st with orders := alistInsert st.orders order_id o }
          | _ => .ok { st with orders := alistInsert st.orders order_id o }

def alistRemove {β : Type} (m : List (String × β)) (k : String) :
    List (String × β) :=
  match m with
  | [] => []
  | p :: rest => if p.1 = k then rest else p :: alistRemove rest k

/-- engine.rs `BacktestEngine::process_pending_orders`: over a snapshot of
the resting order ids, re-check each Limit order against the current bar
and fill at its limit price when crossed; other types rest on. The
snapshot is `self.orders.keys().cloned()` — an iteration of a `HashMap`
whose order Rust randomizes per map instance — so the enumeration
`order_ids` is an explicit input here: the program's behaviours are
exactly those where `order_ids` is some permutation of the current key
set (ids not in the map are skipped by the `if let` lookup, so larger
enumerations add nothing). -/
def BacktestEngine.process_pending_orders
    (market_data : List (String × List MarketData)) (fee_rate : ℚ)
    (order_ids : List String)
    (st : EngineState) (time : ℤ) : Except TradingError EngineState :=
  order_ids.foldlM
    (fun st order_id =>
      match alistGet st.orders order_id with
      | none => .ok st
      | some o =>
          match BacktestEngine.get_current_market_data market_data o.symbol time with
          | .error e => .error e
          | .ok bar =>
              match o.order_type with
              | .Limit =>
                  let can_execute : Bool :=
                    match o.side with
                    | .Buy => decide (bar.low ≤ o.price)
                    | .Sell => decide (o.price ≤ bar.high)
                  if can_execute then
                    .ok (BacktestEngine.execute_trade fee_rate
                      { st with orders := alistRemove st.orders order_id }
                      o o.price o.quantity time)
                  else .ok st
              | _ => .ok st)
    st

/-- The per-strategy body of `run`'s timeline loop: `update` the strategy
with the current bar, drain its new orders, and `process_order` each —
each `?` propagating the first error. -/
def BacktestEngine.run_strategies {σ : Type} (ops : StrategyOps σ)
    (market_data : List (String × List MarketData)) (fee_rate slippage : ℚ)
    (current_data : MarketData) (time : ℤ) :
    List σ → EngineState → Except TradingError (List σ × EngineState)
  | [], st => .ok ([], st)
  | s :: rest, st =>
      match ops.update s current_data with
      | .error e => .error e
      | .ok s1 =>
          match ops.get_orders s1 with
          | .error e => .error e
          | .ok (s2, new_orders) =>
              match new_orders.foldlM
                  (fun st o => BacktestEngine.process_order market_data
                    fee_rate slippage st o time) st with
              | .error e => .error e
              | .ok st1 =>
                  match BacktestEngine.run_strategies ops market_data fee_rate
                      slippage current_data time rest st1 with
                  | .error e => .error e
                  | .ok (rest1, st2) => .ok (s2 :: rest1, st2)

/-- One timeline entry of `run`: fetch the entry's bar, update every
strategy against it (draining and processing orders strategy by
strategy), then process resting limit orders; the entry's time becomes
`current_time`. The accumulator also carries the stream of pending-order
key enumerations (one per entry, consumed head-first) standing for the
per-call `HashMap` iteration orders. -/
def BacktestEngine.timeline_step {σ : Type} (ops : StrategyOps σ)
    (market_data : List (String × List MarketData)) (fee_rate slippage : ℚ)
    (acc : List σ × EngineState × ℤ × List (List String))
    (entry : ℤ × String) :
    Except TradingError (List σ × EngineState × ℤ × List (List String)) :=
  let (strategies, st, _, pending_enums) := acc
  let (time, symbol) := entry
  match BacktestEngine.get_current_market_data market_data symbol time with
  | .error e => .error e
  | .ok current_data =>
      match BacktestEngine.run_strategies ops market_data fee_rate slippage
          current_data time strategies st with
      | .error e => .error e
      | .ok (strategies1, st1) =>
          match BacktestEngine.process_pending_orders market_data fee_rate
              (pending_enums.headD []) st1 time with
          | .error e => .error e
          | .ok st2 => .ok (strategies1, st2, time, pending_enums.tail)

/-- `run`'s timeline construction: one `(timestamp, symbol)` entry per
loaded bar, enumerating the per-symbol series in `symbol_order` (the
iteration order of `self.market_data.keys()`), then a STABLE sort by
timestamp alone (Rust `sort_by(|a, b| a.0.cmp(&b.0))`), then the
`[start, end]` filter. -/
def BacktestEngine.build_timeline
    (market_data : List (String × List MarketData))
    (symbol_order : List String) (start_time end_time : ℤ) :
    List (ℤ × String) :=
  let timeline := symbol_order.flatMap
    (fun s => ((alistGet market_data s).getD []).map (fun d => (d.timestamp, s)))
  let sorted := List.insertionSort (fun a b : ℤ × String => a.1 ≤ b.1) timeline
  sorted.filter (fun e => decide (start_time ≤ e.1) && decide (e.1 ≤ end_time))

/-- engine.rs `generate_result`'s portfolio valuation: USDT counts at
face value, any other currency is valued with the close of the
`<currency>USDT` bar at `end_time` when available, else skipped. -/
def BacktestEngine.portfolio_value
    (market_data : List (String × List MarketData)) (end_time : ℤ)
    (balances : List (String × ℚ)) : ℚ :=
  balances.foldl
    (fun acc p =>
      if p.1 = "USDT" then acc + p.2
      else
        match BacktestEngine.get_current_market_data market_data
            (p.1 ++ "USDT") end_time with
        | .ok bar => acc + p.2 * bar.close
        | .error _ => acc)
    0

/-- engine.rs `BacktestEngine::generate_result` (+ `calculate_total_fees`). -/
def BacktestEngine.generate_result
    (market_data : List (String × List MarketData)) (fee_rate : ℚ)
    (start_time : ℤ) (initial_balance : List (String × ℚ))
    (st : EngineState) (end_time : ℤ) : BacktestResult :=
  let initial_value := BacktestEngine.portfolio_value market_data end_time
    initial_balance
  let final_value := BacktestEngine.portfolio_value market_data end_time
    st.current_balance
  let profit := final_value - initial_value
  { start_time := start_time, end_time := end_time,
    initial_balance := initial_balance, final_balance := st.current_balance,
    initial_value := initial_value, final_value := final_value,
    profit := profit, profit_percentage := profit / initial_value * 100,
    trades := st.trades,
    fee_paid := st.trades.foldl
      (fun acc t => acc + t.price * t.quantity * fee_rate) 0 }

/-- The replay half of `run`: fold `timeline_step` over an already-built
timeline from the fresh engine state, then `generate_result` at the last
processed entry's time. `pending_enums` supplies the per-entry resting
order-id enumerations. -/
def BacktestEngine.replay {σ : Type} (ops : StrategyOps σ)
    (market_data : List (String × List MarketData)) (start_time : ℤ)
    (initial_balance : List (String × ℚ)) (fee_rate slippage : ℚ)
    (strategies : List σ) (pending_enums : List (List String))
    (timeline : List (ℤ × String)) :
    Except TradingError BacktestResult :=
  let st0 : EngineState :=
    { current_balance := initial_balance, orders := [], trades := [],
      order_id_counter := 0 }
  match timeline.foldlM
      (BacktestEngine.timeline_step ops market_data fee_rate slippage)
      (strategies, st0, start_time, pending_enums) with
  | .error e => .error e
  | .ok (_, stF, current_time, _) =>
      .ok (BacktestEngine.generate_result market_data fee_rate start_time
        initial_balance stF current_time)

/-- engine.rs `BacktestEngine::run`: load the provider's map (given), build
the sorted filtered timeline, replay it (every per-entry failure
propagating via `?` and aborting the replay), then generate the result at
the last processed entry's time (`start_time` when no entry was
processed). `symbol_order` and `pending_enums` stand for the two
`HashMap` iterations the source performs (market-data keys at line 97;
resting-order keys at line 251), whose orders Rust does not fix. -/
def BacktestEngine.run {σ : Type} (ops : StrategyOps σ)
    (market_data : List (String × List MarketData))
    (symbol_order : List String) (start_time end_time : ℤ)
    (initial_balance : List (String × ℚ)) (fee_rate slippage : ℚ)
    (strategies : List σ) (pending_enums : List (List String)) :
    Except TradingError BacktestResult :=
  BacktestEngine.replay ops market_data start_time initial_balance fee_rate
    slippage strategies pending_enums
    (BacktestEngine.build_timeline market_data symbol_order start_time end_time)

/-- Per the claim's words (spec-side definition, for comparison with the
source's `get_current_market_data`): the LATEST bar of the symbol's
ascending-sorted series whose timestamp is at or before the entry's
timestamp. -/
def specLatestBarAtOrBefore (data_series : List MarketData) (time : ℤ) :
    Option MarketData :=
  (data_series.filter (fun d => decide (d.timestamp ≤ time))).getLast?

instance {ε α : Type} [DecidableEq ε] [DecidableEq α] :
    DecidableEq (Except ε α) := fun
  | .error e1, .error e2 =>
      match decEq e1 e2 with
      | isTrue h => isTrue (congrArg Except.error h)
      | isFalse h => isFalse (fun hc => h (Except.error.inj hc))
  | .error _, .ok _ => isFalse (fun hc => Except.noConfusion hc)
  | .ok _, .error _ => isFalse (fun hc => Except.noConfusion hc)
  | .ok a1, .ok a2 =>
      match decEq a1 a2 with
      | isTrue h => isTrue (congrArg Except.ok h)
      | isFalse h => isFalse (fun hc => h (Except.ok.inj hc))

/-- A flat OHLCV bar (all prices at `close`) for concrete scenarios. -/
def sampleBar (symbol : String) (ts : ℤ) (close : ℚ) : MarketData :=
  { symbol := symbol, timestamp := ts, open_ := close, high := close,
    low := close, close := close, volume := 0 }

/-- A per-symbol technical-strategy stand-in obeying the `Strategy`
contract: state is (own symbol, pending orders); `update` ignores bars of
other symbols and otherwise pends one Market Buy of `qty` at the bar's
close; `get_orders` drains. -/
def buyEachBarOps (qty : ℚ) : StrategyOps (String × List Order) :=
  { update := fun s bar =>
      .ok (if bar.symbol = s.1
           then (s.1, s.2 ++ [Order.mk' s.1 OrderSide.Buy OrderType.Market qty bar.close])
           else s),
    get_orders := fun s => .ok ((s.1, []), s.2) }

/-- A strategy stand-in that can emit ONLY Market orders by construction:
state is (own symbol, pending close prices); `update` ignores other
symbols and pends the bar's close, `get_orders` drains the pends as
Market Buys of `qty`. Used to exercise the no-resting-orders hypothesis
of the backtest determinism theorem. -/
def marketBuyEachBarOps (qty : ℚ) : StrategyOps (String × List ℚ) :=
  { update := fun s bar =>
      .ok (if bar.symbol = s.1 then (s.1, s.2 ++ [bar.close]) else s),
    get_orders := fun s =>
      .ok ((s.1, []),
        s.2.map (fun p => Order.mk' s.1 OrderSide.Buy OrderType.Market qty p)) }

/-- Similarity of two timeline-fold outcomes that differ only in the
pending-enumeration component of the accumulator: equal errors, or equal
strategies/engine-state/time with the engine's resting-order map empty. -/
def accSim {σ : Type}
    (x y : Except TradingError (List σ × EngineState × ℤ × List (List String))) :
    Prop :=
  match x, y with
  | .error a, .error b => a = b
  | .ok a, .ok b =>
      a.1 = b.1 ∧ a.2.1 = b.2.1 ∧ a.2.2.1 = b.2.2.1 ∧ a.2.1.orders = []
  | _, _ => False

/-! ## Theorems -/

/-- C9 — counterexample: the claim says a strength of exactly `+0.7` is
labeled `StrongBuy` (inclusive threshold). `from_strength` compares with
strict `>`, so `0.7` falls through to the `> 0.3` arm and is labeled
`Buy`, not `StrongBuy`. -/
theorem from_strength_at_exactly_seven_tenths :
    SignalType.from_strength (7/10) = SignalType.Buy ∧
    SignalType.from_strength (7/10) ≠ SignalType.StrongBuy := by
  have h : SignalType.from_strength (7/10) = SignalType.Buy := by
    norm_num [SignalType.from_strength]
  exact ⟨h, by rw [h]; decide⟩

/-- C9 (amended) — `SignalType::from_strength` maps strength to label with
STRICT thresholds: magnitude `> 0.7` yields Strong, magnitude `> 0.3`
yields normal Buy/Sell, magnitude `> 0` yields Reduce-opposite, and zero
yields Neutral; exactly `+0.7` is labeled `Buy` and exactly `-0.7` is
labeled `Sell`. -/
theorem from_strength_strict_thresholds (s : ℚ) :
    (7/10 < s → SignalType.from_strength s = SignalType.StrongBuy) ∧
    (3/10 < s ∧ s ≤ 7/10 → SignalType.from_strength s = SignalType.Buy) ∧
    (0 < s ∧ s ≤ 3/10 → SignalType.from_strength s = SignalType.ReduceShort) ∧
    (s < -(7/10) → SignalType.from_strength s = SignalType.StrongSell) ∧
    (-(7/10) ≤ s ∧ s < -(3/10) → SignalType.from_strength s = SignalType.Sell) ∧
    (-(3/10) ≤ s ∧ s < 0 → SignalType.from_strength s = SignalType.ReduceLong) ∧
    (s = 0 → SignalType.from_strength s = SignalType.Neutral) := by
  unfold SignalType.from_strength
  refine ⟨?_, ?_, ?_, ?_, ?_, ?_, ?_⟩
  · intro h
    rw [if_pos h]
  · rintro ⟨ha, hb⟩
    rw [if_neg (by linarith), if_pos ha]
  · rintro ⟨ha, hb⟩
    rw [if_neg (by linarith), if_neg (by linarith), if_pos ha]
  · intro h
    rw [if_neg (by linarith), if_neg (by linarith), if_neg (by linarith),
      if_pos h]
  · rintro ⟨ha, hb⟩
    rw [if_neg (by linarith), if_neg (by linarith), if_neg (by linarith),
      if_neg (by linarith), if_pos hb]
  · rintro ⟨ha, hb⟩
    rw [if_neg (by linarith), if_neg (by linarith), if_neg (by linarith),
      if_neg (by linarith), if_neg (by linarith), if_pos hb]
  · intro h
    subst h
    norm_num

/-- C9 (amended) witness: concrete strengths on each side of the strict
thresholds. -/
theorem from_strength_strict_thresholds_witness :
    SignalType.from_strength 1 = SignalType.StrongBuy ∧
    SignalType.from_strength (1/2) = SignalType.Buy ∧
    SignalType.from_strength (-(7/10)) = SignalType.Sell ∧
    SignalType.from_strength 0 = SignalType.Neutral :=
  ⟨(from_strength_strict_thresholds 1).1 (by norm_num),
   (from_strength_strict_thresholds (1/2)).2.1 (by norm_num),
   (from_strength_strict_thresholds (-(7/10))).2.2.2.2.1 (by norm_num),
   (from_strength_strict_thresholds 0).2.2.2.2.2.2 rfl⟩

theorem alistGet_insert {β : Type} (m : List (String × β)) (k : String) (v : β) :
    alistGet (alistInsert m k v) k = some v := by
  induction m with
  | nil => simp [alistGet, alistInsert]
  | cons p rest ih =>
      by_cases h : p.1 = k
      · simp [alistGet, alistInsert, h]
      · simpa [alistGet, alistInsert, h] using ih

/-- C1 — counterexample: a concrete `create_order` call on an empty
repository whose exchange submission fails. The claim says the
provisional record is deleted before the error is surfaced, leaving the
repository in its pre-call state; in fact `create_order` returns the
submit error with the provisional record still stored, so the repository
differs from its pre-call (empty) state. -/
theorem create_order_failed_submit_leaves_record :
    (OrderManager.create_order [] "u1" (fun _ => .error (.ExchangeError "down"))
        InMemoryOrderRepository.new
        { Order.mk' "BTCUSDT" .Buy .Limit 1 50000 with client_order_id := some "c1" }).2
      ≠ InMemoryOrderRepository.new ∧
    (OrderManager.create_order [] "u1" (fun _ => .error (.ExchangeError "down"))
        InMemoryOrderRepository.new
        { Order.mk' "BTCUSDT" .Buy .Limit 1 50000 with client_order_id := some "c1" }).1
      = .error (.ExchangeError "down") := by
  constructor
  · intro h
    have := congrArg (fun r => r.orders.length) h
    simp [OrderManager.create_order, OrderManager.assignClientId, runValidators,
      InMemoryOrderRepository.save, InMemoryOrderRepository.new, alistInsert] at this
  · rfl

/-- C1 (amended) — when the exchange submission (step 4) fails after the
provisional record has been persisted (step 3), `create_order` surfaces
the submit error WITHOUT deleting the provisional record: the final
repository is exactly the pre-call repository with the provisional record
saved into it, and that record (under its pre-exchange id) is visible in
the post-call repository. -/
theorem create_order_submit_failure_keeps_provisional
    (validators : List (Order → Except TradingError Unit))
    (fresh_client_id : String)
    (submit : Order → Except TradingError String)
    (r : InMemoryOrderRepository) (o : Order) (e : TradingError)
    (hv : runValidators validators o = .ok ())
    (hs : submit (OrderManager.assignClientId o fresh_client_id) = .error e) :
    OrderManager.create_order validators fresh_client_id submit r o
      = (.error e, r.save (OrderManager.assignClientId o fresh_client_id)) ∧
    alistGet (OrderManager.create_order validators fresh_client_id submit r o).2.orders
        (OrderManager.assignClientId o fresh_client_id).id
      = some (OrderManager.assignClientId o fresh_client_id) := by
  have hrun : OrderManager.create_order validators fresh_client_id submit r o
      = (.error e, r.save (OrderManager.assignClientId o fresh_client_id)) := by
    unfold OrderManager.create_order
    rw [hv]
    simp only [hs]
  refine ⟨hrun, ?_⟩
  rw [hrun]
  exact alistGet_insert ..

/-- C1 (amended) witness: the failing-submit scenario at concrete inputs. -/
theorem create_order_submit_failure_keeps_provisional_witness :
    OrderManager.create_order [] "u1" (fun _ => .error (.ExchangeError "down"))
        InMemoryOrderRepository.new
        { Order.mk' "BTCUSDT" .Buy .Limit 1 50000 with client_order_id := some "c1" }
      = (.error (.ExchangeError "down"),
         InMemoryOrderRepository.new.save
           (OrderManager.assignClientId
             { Order.mk' "BTCUSDT" .Buy .Limit 1 50000 with client_order_id := some "c1" }
             "u1")) :=
  (create_order_submit_failure_keeps_provisional [] "u1"
    (fun _ => .error (.ExchangeError "down")) InMemoryOrderRepository.new
    { Order.mk' "BTCUSDT" .Buy .Limit 1 50000 with client_order_id := some "c1" }
    (.ExchangeError "down") rfl rfl).1

/-- C3 — the S5 scenario: EMA(2)/EMA(4) crossover over closes
`[10,10,10,10,12,14]`. Both MAs are ready from the 4th bar; after the 5th
bar the fast EMA (34/3) is already above the slow EMA (54/5) having been
equal to it (both 10) on the 4th — the golden-cross condition of the
claim. Yet `calculate` emits NO signal after the 5th bar nor after the
final bar: `last_fast`/`last_slow` are never written by `update` (and
`calculate` takes the state immutably), so the crossover branch never
fires and the signal list is always empty. -/
theorem crossover_s5_emits_no_golden_cross :
    ((MovingAverageCrossover.with_ema 2 4).feed [10,10,10,10,12,14]).calculate
      = Except.ok (232/225, ([] : List IndicatorSignal)) ∧
    ((MovingAverageCrossover.with_ema 2 4).feed [10,10,10,10,12]).calculate
      = Except.ok (8/15, ([] : List IndicatorSignal)) ∧
    ((MovingAverageCrossover.with_ema 2 4).feed [10,10,10,10]).calculate
      = Except.ok (0, ([] : List IndicatorSignal)) ∧
    ((MovingAverageCrossover.with_ema 2 4).feed [10,10,10,10,12,14]).last_fast
      = none := by
  refine ⟨?_, ?_, ?_, ?_⟩ <;>
    norm_num [MovingAverageCrossover.feed, MovingAverageCrossover.with_ema,
      MovingAverageCrossover.update, MovingAverageCrossover.calculate,
      MovingAverageCrossover.is_ready, ExponentialMovingAverage.new,
      ExponentialMovingAverage.update, ExponentialMovingAverage.is_ready,
      ExponentialMovingAverage.calculate]

theorem twapLoop_exact (q : ℚ) (hq : 0 < q) :
    ∀ k : ℕ, twapLoop q (k + 1) ((k + 1 : ℕ) * q)
      = (List.replicate (k + 1) q, ((k + 1 : ℕ) : ℚ) * q) := by
  intro k
  induction k with
  | zero =>
      simp [twapLoop, hq]
  | succ j ih =>
      have hj : (0:ℚ) ≤ (j:ℚ) := Nat.cast_nonneg j
      have hcast : ((j + 1 + 1 : ℕ) : ℚ) = (j:ℚ) + 2 := by push_cast; ring
      have hmin : min q (((j + 1 + 1 : ℕ) : ℚ) * q) = q := by
        rw [min_eq_left]; rw [hcast]; nlinarith
      have hsub : ((j + 1 + 1 : ℕ) : ℚ) * q - q = ((j + 1 : ℕ) : ℚ) * q := by
        push_cast; ring
      conv_lhs => rw [twapLoop]
      simp only [Nat.succ_ne_zero, if_false, hmin]
      rw [if_pos hq, if_neg (by rw [hsub]; push_cast; nlinarith :
        ¬ (((j + 1 + 1 : ℕ) : ℚ) * q - q ≤ 0))]
      rw [hsub, ih]
      refine Prod.ext ?_ ?_
      · simp [List.replicate_succ]
      · push_cast; ring

/-- C7 — for a completed TWAP run with `num_slices ≥ 1` and every child
submission succeeding: each slice submits `total_quantity / num_slices`
(the non-final slices as `min slice_quantity remaining`, the final slice
as exactly the remaining quantity — with exact division both equal
`total/num_slices`), the child quantities sum to `total_quantity`, and on
return `executed_quantity = total_quantity` with `is_active = false`. -/
theorem twap_start_slices (total : ℚ) (n : ℕ) (hn : 1 ≤ n) (ht : 0 < total) :
    (TwapSplitter.start total n).1 = List.replicate n (total / (n : ℚ)) ∧
    ((TwapSplitter.start total n).1).sum = total ∧
    (TwapSplitter.start total n).2.1 = total ∧
    (TwapSplitter.start total n).2.2 = false := by
  obtain ⟨m, rfl⟩ : ∃ m, n = m + 1 := ⟨n - 1, (Nat.succ_pred_eq_of_pos hn).symm⟩
  have hnq : (0:ℚ) < ((m + 1 : ℕ) : ℚ) := by positivity
  have hq : 0 < total / ((m + 1 : ℕ) : ℚ) := div_pos ht hnq
  have htq : ((m + 1 : ℕ) : ℚ) * (total / ((m + 1 : ℕ) : ℚ)) = total := by
    field_simp
  have hloop := twapLoop_exact (total / ((m + 1 : ℕ) : ℚ)) hq m
  rw [htq] at hloop
  unfold TwapSplitter.start
  simp only [hloop]
  refine ⟨trivial, ?_, trivial, trivial⟩
  rw [List.sum_replicate, nsmul_eq_mul, htq]

/-- C7 witness — the S1 scenario (`total = 1.0`, 5 slices): five children
of `0.2` each, `executed_quantity = 1.0`. -/
theorem twap_start_slices_witness :
    (TwapSplitter.start 1 5).1 = List.replicate 5 ((1 : ℚ) / 5) ∧
    (TwapSplitter.start 1 5).2.1 = 1 :=
  ⟨by
     have h := (twap_start_slices 1 5 (by norm_num) (by norm_num)).1
     simpa using h,
   by
     have h := (twap_start_slices 1 5 (by norm_num) (by norm_num)).2.2.1
     simpa using h⟩

theorem trailActivationGate_highest (side : OrderSide) (ap : Option ℚ)
    (st : TrailLoopState) (p : ℚ) (st1 : TrailLoopState)
    (h : trailActivationGate side ap st p = some st1) :
    st1.highest_price = st.highest_price := by
  unfold trailActivationGate at h
  rcases hact : st.activated with _ | _ <;> rcases hap : ap with _ | a <;>
    simp [hact, hap] at h <;>
    first
      | (subst h; rfl)
      | (obtain ⟨-, he⟩ := h; subst he; rfl)

theorem trailTrackers_highest_le (st : TrailLoopState) (p : ℚ) :
    st.highest_price ≤ (trailTrackers st p).highest_price := by
  unfold trailTrackers
  dsimp only
  split_ifs with h
  · exact le_of_lt h
  · exact le_rfl

theorem trailTick_highest_le (side : OrderSide) (delta : ℚ) (ap : Option ℚ)
    (st : TrailLoopState) (pr : Option ℚ) (ok : Bool) :
    st.highest_price ≤ (trailTick side delta ap st pr ok).highest_price := by
  unfold trailTick
  split
  · exact le_rfl
  cases pr with
  | none => exact le_rfl
  | some p =>
      dsimp only
      cases hgate : trailActivationGate side ap st p with
      | none => exact le_rfl
      | some st1 =>
          dsimp only
          have h1 : st1.highest_price = st.highest_price :=
            trailActivationGate_highest side ap st p st1 hgate
          have h2 : st1.highest_price ≤ (trailTrackers st1 p).highest_price :=
            trailTrackers_highest_le st1 p
          have h3 : st.highest_price ≤ (trailTrackers st1 p).highest_price :=
            h1 ▸ h2
          split_ifs <;> exact h3

theorem trailStopPrice_buy_congr (delta : ℚ) (s s' : TrailLoopState)
    (h : s'.highest_price = s.highest_price) :
    trailStopPrice OrderSide.Buy delta s' = trailStopPrice OrderSide.Buy delta s := by
  unfold trailStopPrice
  rw [h]

theorem trailTrace_head (side : OrderSide) (delta : ℚ) (ap : Option ℚ)
    (st0 : TrailLoopState) (inputs : List (Option ℚ × Bool)) :
    (trailTrace side delta ap st0 inputs).head? = some st0 := by
  cases inputs <;> rfl

/-- C6 — over every Buy-side trailing-stop run (any initial state, any
activation price, any sequence of market-data poll outcomes and submit
results, `trailing_delta` held fixed), along the trace of loop states:
whenever a tick sets no new high the computed `stop_price`
(`highest·(1 − delta/100)`) does not increase (it is unchanged, hence
non-increasing), and a tick can strictly decrease `stop_price` only if
it strictly increased `highest_price`. -/
theorem trailing_buy_stop_monotone (delta : ℚ) (ap : Option ℚ)
    (st0 : TrailLoopState) (inputs : List (Option ℚ × Bool)) :
    List.Chain' (fun s s' =>
      (s'.highest_price = s.highest_price →
        trailStopPrice OrderSide.Buy delta s' ≤ trailStopPrice OrderSide.Buy delta s) ∧
      (trailStopPrice OrderSide.Buy delta s' < trailStopPrice OrderSide.Buy delta s →
        s.highest_price < s'.highest_price))
      (trailTrace OrderSide.Buy delta ap st0 inputs) := by
  induction inputs generalizing st0 with
  | nil => simp [trailTrace]
  | cons inp rest ih =>
      rw [trailTrace, List.chain'_cons']
      refine ⟨?_, ih _⟩
      intro b hb
      rw [trailTrace_head] at hb
      obtain rfl : trailTick OrderSide.Buy delta ap st0 inp.1 inp.2 = b :=
        Option.some_injective _ (by simpa using hb)
      constructor
      · intro h
        exact le_of_eq (trailStopPrice_buy_congr delta st0 _ h)
      · intro hlt
        rcases lt_or_eq_of_le
            (trailTick_highest_le OrderSide.Buy delta ap st0 inp.1 inp.2) with h | h
        · exact h
        · exact absurd (trailStopPrice_buy_congr delta st0 _ h.symm)
            (ne_of_lt hlt)

theorem icebergStart_eq (symbol : String) (side : OrderSide)
    (total limit display : ℚ) (oid : String) (ht : 0 < total) :
    (IcebergManager.new symbol side total limit display).start (some oid)
      = .ok (icebergStartedRun symbol side total limit display oid) := by
  unfold IcebergManager.start IcebergManager.new
    IcebergManager.submit_visible_portion icebergStartedRun
  simp [sub_zero, ht.not_le]

theorem icebergPoll_id (r : IcebergRun) (s : Option OrderStatus)
    (sub : Option String) (h : r.cells.current_order_id = none) :
    r.poll s sub = r := by
  unfold IcebergRun.poll
  rw [h]
  split <;> rfl

theorem icebergInv_start (symbol : String) (side : OrderSide)
    (total limit display : ℚ) (oid : String) :
    IcebergInv total (icebergStartedRun symbol side total limit display oid) := by
  refine ⟨rfl, rfl, rfl, rfl, ?_⟩
  intro p hp
  simp only [icebergStartedRun, List.mem_singleton] at hp
  subst hp
  exact min_le_right _ _

theorem icebergInv_step (total : ℚ) (r : IcebergRun) (e : IcebergEvent)
    (ht : 0 < total) (hinv : IcebergInv total r) :
    IcebergInv total (icebergStep r e) := by
  obtain ⟨h0, h1, h2, h3, h4⟩ := hinv
  cases e with
  | poll s sub =>
      rw [icebergStep, icebergPoll_id r s sub h3]
      exact ⟨h0, h1, h2, h3, h4⟩
  | updatePrice p sub =>
      rw [icebergStep]
      unfold IcebergRun.update_price IcebergManager.submit_visible_portion
      by_cases hact : r.mgr.is_active = true
      · simp only [hact, if_true, h0, h1, sub_zero, ht.not_le, if_false]
        cases sub with
        | none =>
            dsimp only
            exact ⟨rfl, rfl, h2, h3, h4⟩
        | some oid =>
            dsimp only
            refine ⟨rfl, rfl, h2, h3, ?_⟩
            intro q hq
            simp only [Option.toList, List.mem_append, List.mem_singleton] at hq
            rcases hq with hq | hq
            · exact h4 q hq
            · subst hq
              exact min_le_right _ _
      · simp only [hact, if_false]
        exact ⟨h0, h1, h2, h3, h4⟩
  | stopCmd =>
      rw [icebergStep]
      unfold IcebergRun.stop
      split
      · exact ⟨h0, h1, h2, h3, h4⟩
      · exact ⟨h0, h1, h2, h3, h4⟩

theorem icebergInv_exec (total : ℚ) (r : IcebergRun) (evs : List IcebergEvent)
    (ht : 0 < total) (hinv : IcebergInv total r) :
    IcebergInv total (icebergExec r evs) := by
  induction evs generalizing r with
  | nil => exact hinv
  | cons e rest ih =>
      exact ih _ (icebergInv_step total r e ht hinv)

theorem icebergInv_obs (total : ℚ) (r : IcebergRun) (c : Option String)
    (ht : 0 < total) (hinv : IcebergInv total r) :
    r.designatedQty c ≤ total := by
  obtain ⟨-, -, -, -, h4⟩ := hinv
  cases c with
  | none => exact le_of_lt ht
  | some oid =>
      unfold IcebergRun.designatedQty
      dsimp only
      cases hget : alistGet r.submitted oid with
      | none =>
          exact le_of_lt ht
      | some q =>
          unfold alistGet at hget
          obtain ⟨pr, hfp, hqe⟩ := Option.map_eq_some'.mp hget
          have hple := h4 pr (List.mem_of_find?_eq_some hfp)
          simpa [← hqe] using hple


theorem icebergPollFold_id (r : IcebergRun)
    (polls : List (Option OrderStatus × Option String))
    (h : r.cells.current_order_id = none) :
    polls.foldl (fun r pe => r.poll pe.1 pe.2) r = r := by
  induction polls with
  | nil => rfl
  | cons pe rest ih =>
      rw [List.foldl_cons, icebergPoll_id r pe.1 pe.2 h]
      exact ih

/-- C5 — for every iceberg run with `0 < total_quantity` (any
`display_quantity`, any event sequence: polls whose statuses include
fills of a final child smaller than `display_quantity`, price updates,
stops), at every observation point `executed_quantity` plus the quantity
of the child order the current order id designates is at most
`total_quantity` — in both the struct's fields (read by `status()`) and
the loop's cells. This holds because neither executed counter ever
advances: the spawned loop's order-id cell starts `None` and is never
populated, so its `Filled` branch (which would add `display_quantity`,
overshooting on a smaller final child) never runs. -/
theorem iceberg_executed_plus_child_le_total (symbol : String) (side : OrderSide)
    (total limit display : ℚ) (oid : String) (evs : List IcebergEvent)
    (ht : 0 < total) :
    (IcebergManager.new symbol side total limit display).start (some oid)
      = .ok (icebergStartedRun symbol side total limit display oid) ∧
    (icebergExec (icebergStartedRun symbol side total limit display oid) evs).mgr.executed_quantity
      + (icebergExec (icebergStartedRun symbol side total limit display oid) evs).designatedQty
          (icebergExec (icebergStartedRun symbol side total limit display oid) evs).mgr.current_order_id
      ≤ total ∧
    (icebergExec (icebergStartedRun symbol side total limit display oid) evs).cells.executed_quantity
      + (icebergExec (icebergStartedRun symbol side total limit display oid) evs).designatedQty
          (icebergExec (icebergStartedRun symbol side total limit display oid) evs).cells.current_order_id
      ≤ total := by
  have hinv := icebergInv_exec total _ evs ht
    (icebergInv_start symbol side total limit display oid)
  refine ⟨icebergStart_eq symbol side total limit display oid ht, ?_, ?_⟩
  · rw [hinv.2.1, zero_add]
    exact icebergInv_obs total _ _ ht hinv
  · rw [hinv.2.2.1, zero_add]
    exact icebergInv_obs total _ _ ht hinv

/-- C5 witness: total 5, display 2, a fill poll, a price update and a
stop. -/
theorem iceberg_executed_plus_child_le_total_witness :
    (0:ℚ) < 5 ∧
    (icebergExec (icebergStartedRun "BTCUSDT" OrderSide.Buy 5 50000 2 "o1")
        [IcebergEvent.poll (some OrderStatus.Filled) (some "o2"),
         IcebergEvent.updatePrice 49000 (some "o3"),
         IcebergEvent.stopCmd]).mgr.executed_quantity
      + (icebergExec (icebergStartedRun "BTCUSDT" OrderSide.Buy 5 50000 2 "o1")
          [IcebergEvent.poll (some OrderStatus.Filled) (some "o2"),
           IcebergEvent.updatePrice 49000 (some "o3"),
           IcebergEvent.stopCmd]).designatedQty
          (icebergExec (icebergStartedRun "BTCUSDT" OrderSide.Buy 5 50000 2 "o1")
            [IcebergEvent.poll (some OrderStatus.Filled) (some "o2"),
             IcebergEvent.updatePrice 49000 (some "o3"),
             IcebergEvent.stopCmd]).mgr.current_order_id
      ≤ 5 :=
  ⟨by norm_num,
   (iceberg_executed_plus_child_le_total "BTCUSDT" OrderSide.Buy 5 50000 2 "o1"
      [IcebergEvent.poll (some OrderStatus.Filled) (some "o2"),
       IcebergEvent.updatePrice 49000 (some "o3"),
       IcebergEvent.stopCmd] (by norm_num)).2.1⟩

/-- C10 — after a successful `start()`, the spawned monitoring loop
never writes the struct fields `status()`/`stop()` read: any sequence of
poll iterations leaves the run state (in particular `self`'s
`executed_quantity = 0`, `current_order_id = `the first child's id,
`is_active = true`, as `status()` reports) unchanged, and `stop()`
rewrites only the struct's `is_active` flag — not the cells' flag the
loop's continuation condition reads, which stays `true`. -/
theorem iceberg_loop_frames_struct (symbol : String) (side : OrderSide)
    (total limit display : ℚ) (oid : String)
    (polls : List (Option OrderStatus × Option String)) (ht : 0 < total) :
    (IcebergManager.new symbol side total limit display).start (some oid)
      = .ok (icebergStartedRun symbol side total limit display oid) ∧
    polls.foldl (fun r pe => r.poll pe.1 pe.2)
        (icebergStartedRun symbol side total limit display oid)
      = icebergStartedRun symbol side total limit display oid ∧
    (icebergStartedRun symbol side total limit display oid).mgr.status
      = (true, 0, total) ∧
    (icebergStartedRun symbol side total limit display oid).mgr.current_order_id
      = some oid ∧
    ((icebergStartedRun symbol side total limit display oid).stop).mgr
      = { (icebergStartedRun symbol side total limit display oid).mgr with
          is_active := false } ∧
    ((icebergStartedRun symbol side total limit display oid).stop).cells
      = (icebergStartedRun symbol side total limit display oid).cells ∧
    (icebergStartedRun symbol side total limit display oid).cells.is_active = true := by
  refine ⟨icebergStart_eq symbol side total limit display oid ht,
    icebergPollFold_id _ polls rfl, rfl, rfl, ?_, ?_, rfl⟩
  · unfold IcebergRun.stop
    norm_num [icebergStartedRun]
  · unfold IcebergRun.stop
    norm_num [icebergStartedRun]

/-- C10 witness: two poll iterations on a concrete run. -/
theorem iceberg_loop_frames_struct_witness :
    List.foldl (fun r pe => IcebergRun.poll r pe.1 pe.2)
        (icebergStartedRun "BTCUSDT" OrderSide.Buy 5 50000 2 "o1")
        [(some OrderStatus.Filled, some "o2"), (none, none)]
      = icebergStartedRun "BTCUSDT" OrderSide.Buy 5 50000 2 "o1" ∧
    (icebergStartedRun "BTCUSDT" OrderSide.Buy 5 50000 2 "o1").mgr.status
      = (true, 0, 5) :=
  ⟨(iceberg_loop_frames_struct "BTCUSDT" OrderSide.Buy 5 50000 2 "o1"
      [(some OrderStatus.Filled, some "o2"), (none, none)] (by norm_num)).2.1,
   (iceberg_loop_frames_struct "BTCUSDT" OrderSide.Buy 5 50000 2 "o1"
      [(some OrderStatus.Filled, some "o2"), (none, none)] (by norm_num)).2.2.1⟩

/-- C4 — the claim says the bar used is the LATEST bar at-or-before the
entry's timestamp. The source scans the ascending series and returns the
FIRST bar with `timestamp ≤ time` — the EARLIEST such bar: with bars at
100 and 200 queried at time 200 it returns the bar at 100, while the
latest at-or-before bar is the one at 200. (The `DataNotFound` half of
the claim does hold: no qualifying bar or unknown symbol fails.) -/
theorem get_current_market_data_earliest_not_latest :
    BacktestEngine.get_current_market_data
        [("BTCUSDT", [sampleBar "BTCUSDT" 100 1, sampleBar "BTCUSDT" 200 2])]
        "BTCUSDT" 200
      = .ok (sampleBar "BTCUSDT" 100 1) ∧
    specLatestBarAtOrBefore
        [sampleBar "BTCUSDT" 100 1, sampleBar "BTCUSDT" 200 2] 200
      = some (sampleBar "BTCUSDT" 200 2) ∧
    sampleBar "BTCUSDT" 100 1 ≠ sampleBar "BTCUSDT" 200 2 := by
  refine ⟨?_, ?_, ?_⟩ <;> decide

/-- C2 — counterexample: a replay in which the single drained order fails
the balance check (`1 BTC` at `100` against a quote balance of `50`).
The claim says only that order is aborted and `run` still returns a
`BacktestResult`; in fact `run` propagates the error and returns
`Err(InsufficientBalance)`. -/
theorem run_aborts_replay_on_insufficient_balance :
    BacktestEngine.run (buyEachBarOps 1)
        [("BTCUSDT", [sampleBar "BTCUSDT" 1000 100])]
        ["BTCUSDT"] 0 2000 [("USDT", 50)] 0 0 [("BTCUSDT", [])] []
      = .error .InsufficientBalance := by
  have hdrop : "BTCUSDT".drop 3 = "USDT" := rfl
  have htake : "BTCUSDT".take 3 = "BTC" := rfl
  norm_num [hdrop, htake, BacktestEngine.run, BacktestEngine.replay,
    BacktestEngine.build_timeline,
    BacktestEngine.timeline_step, BacktestEngine.run_strategies,
    BacktestEngine.process_order, BacktestEngine.process_pending_orders,
    BacktestEngine.get_current_market_data, BacktestEngine.generate_order_id,
    BacktestEngine.execute_trade, buyEachBarOps, sampleBar, alistGet,
    alistInsert, alistAdd, List.insertionSort, List.orderedInsert,
    List.foldlM, List.headD, List.tail, Order.mk']

/-- C2 (amended) — when processing a drained order fails with
`InsufficientBalance` (here: a Buy of `q` at close `100` against a quote
balance `b < q·100·(1+fee)`), `BacktestEngine::run` does NOT continue
with the remaining orders and timeline entries: the error propagates
through the per-entry `?` and `run` returns `Err(InsufficientBalance)`
instead of a `BacktestResult`. -/
theorem run_propagates_insufficient_balance (q b f sl : ℚ)
    (hb : b < q * 100 * (1 + f)) :
    BacktestEngine.run (buyEachBarOps q)
        [("BTCUSDT", [sampleBar "BTCUSDT" 1000 100])]
        ["BTCUSDT"] 0 2000 [("USDT", b)] f sl [("BTCUSDT", [])] []
      = .error .InsufficientBalance := by
  have hdrop : "BTCUSDT".drop 3 = "USDT" := rfl
  have htake : "BTCUSDT".take 3 = "BTC" := rfl
  norm_num [hb, hdrop, htake, BacktestEngine.run, BacktestEngine.replay,
    BacktestEngine.build_timeline,
    BacktestEngine.timeline_step, BacktestEngine.run_strategies,
    BacktestEngine.process_order, BacktestEngine.process_pending_orders,
    BacktestEngine.get_current_market_data, BacktestEngine.generate_order_id,
    BacktestEngine.execute_trade, buyEachBarOps, sampleBar, alistGet,
    alistInsert, alistAdd, List.insertionSort, List.orderedInsert,
    List.foldlM, List.headD, List.tail, Order.mk']

/-- C2 (amended) witness: a million-unit Buy against a 1000-unit balance. -/
theorem run_propagates_insufficient_balance_witness :
    BacktestEngine.run (buyEachBarOps 1000000)
        [("BTCUSDT", [sampleBar "BTCUSDT" 1000 100])]
        ["BTCUSDT"] 0 2000 [("USDT", 1000)] 0 0 [("BTCUSDT", [])] []
      = .error .InsufficientBalance :=
  run_propagates_insufficient_balance 1000000 1000 0 0 (by norm_num)

/-- C8 — counterexample: two runs over IDENTICAL inputs (two symbols with
bars at the SAME timestamp, same strategies, balances, fees) that differ
only in the iteration order of the market-data map's keys — an order
Rust's `HashMap` randomizes per process, not an input — produce different
`BacktestResult`s: the stable sort keeps the tied entries in key order,
so the trade list comes out as BTC-then-ETH in one run and
ETH-then-BTC in the other. -/
theorem run_symbol_order_changes_result :
    BacktestEngine.run (buyEachBarOps 1)
        [("BTCUSDT", [sampleBar "BTCUSDT" 1000 100]),
         ("ETHUSDT", [sampleBar "ETHUSDT" 1000 10])]
        ["BTCUSDT", "ETHUSDT"] 0 2000 [("USDT", 10000)] 0 0
        [("BTCUSDT", []), ("ETHUSDT", [])] []
      ≠ BacktestEngine.run (buyEachBarOps 1)
        [("BTCUSDT", [sampleBar "BTCUSDT" 1000 100]),
         ("ETHUSDT", [sampleBar "ETHUSDT" 1000 10])]
        ["ETHUSDT", "BTCUSDT"] 0 2000 [("USDT", 10000)] 0 0
        [("BTCUSDT", []), ("ETHUSDT", [])] [] := by
  have hdropB : "BTCUSDT".drop 3 = "USDT" := rfl
  have htakeB : "BTCUSDT".take 3 = "BTC" := rfl
  have hdropE : "ETHUSDT".drop 3 = "USDT" := rfl
  have htakeE : "ETHUSDT".take 3 = "ETH" := rfl
  have hpure : ∀ {α : Type} (x : α),
      (pure x : Except TradingError α) = Except.ok x := fun _ => rfl
  have hbind_ok : ∀ {α β : Type} (x : α) (f : α → Except TradingError β),
      (Except.ok x >>= f) = f x := fun _ _ => rfl
  have hbind_err : ∀ {α β : Type} (er : TradingError)
      (f : α → Except TradingError β),
      ((Except.error er : Except TradingError α) >>= f) = .error er :=
    fun _ _ => rfl
  have hpure2 : ∀ {α : Type} (x : α),
      (Except.pure x : Except TradingError α) = Except.ok x := fun _ => rfl
  have e1 : BacktestEngine.run (buyEachBarOps 1)
        [("BTCUSDT", [sampleBar "BTCUSDT" 1000 100]),
         ("ETHUSDT", [sampleBar "ETHUSDT" 1000 10])]
        ["BTCUSDT", "ETHUSDT"] 0 2000 [("USDT", 10000)] 0 0
        [("BTCUSDT", []), ("ETHUSDT", [])] []
      = .ok { start_time := 0, end_time := 1000,
              initial_balance := [("USDT", 10000)],
              final_balance := [("USDT", 9890), ("BTC", 1), ("ETH", 1)],
              initial_value := 10000, final_value := 10000,
              profit := 0, profit_percentage := 0,
              trades := [
                { id := "trade-" ++ toString 1, symbol := "BTCUSDT",
                  price := 100, quantity := 1, timestamp := 1000,
                  order_id := "backtest-" ++ toString 1, side := OrderSide.Buy },
                { id := "trade-" ++ toString 2, symbol := "ETHUSDT",
                  price := 10, quantity := 1, timestamp := 1000,
                  order_id := "backtest-" ++ toString 2, side := OrderSide.Buy }],
              fee_paid := 0 } := by
    try simp [hdropB, htakeB, hdropE, htakeE, BacktestEngine.run,
      BacktestEngine.replay, BacktestEngine.build_timeline, BacktestEngine.timeline_step,
      BacktestEngine.run_strategies, BacktestEngine.process_order,
      BacktestEngine.process_pending_orders, BacktestEngine.generate_result,
      BacktestEngine.portfolio_value, BacktestEngine.get_current_market_data,
      BacktestEngine.generate_order_id, BacktestEngine.execute_trade,
      buyEachBarOps, sampleBar, alistGet, alistInsert, alistAdd, alistRemove,
      List.insertionSort, List.orderedInsert, List.foldlM, List.headD,
      List.tail, Order.mk',
      hpure, hpure2, hbind_ok, hbind_err, Except.instMonad, Except.bind,
      Except.map, Option.map, Option.getD, List.find?,
      List.filter, List.flatMap]
    try dsimp only [Except.pure]
    try norm_num
    try simp [hdropB, htakeB, hdropE, htakeE, BacktestEngine.run,
      BacktestEngine.replay, BacktestEngine.build_timeline, BacktestEngine.timeline_step,
      BacktestEngine.run_strategies, BacktestEngine.process_order,
      BacktestEngine.process_pending_orders, BacktestEngine.generate_result,
      BacktestEngine.portfolio_value, BacktestEngine.get_current_market_data,
      BacktestEngine.generate_order_id, BacktestEngine.execute_trade,
      buyEachBarOps, sampleBar, alistGet, alistInsert, alistAdd, alistRemove,
      List.insertionSort, List.orderedInsert, List.foldlM, List.headD,
      List.tail, Order.mk',
      hpure, hpure2, hbind_ok, hbind_err, Except.instMonad, Except.bind,
      Except.map, Option.map, Option.getD, List.find?,
      List.filter, List.flatMap]
    try dsimp only [Except.pure]
    try norm_num
    try simp [hdropB, htakeB, hdropE, htakeE, BacktestEngine.run,
      BacktestEngine.replay, BacktestEngine.build_timeline, BacktestEngine.timeline_step,
      BacktestEngine.run_strategies, BacktestEngine.process_order,
      BacktestEngine.process_pending_orders, BacktestEngine.generate_result,
      BacktestEngine.portfolio_value, BacktestEngine.get_current_market_data,
      BacktestEngine.generate_order_id, BacktestEngine.execute_trade,
      buyEachBarOps, sampleBar, alistGet, alistInsert, alistAdd, alistRemove,
      List.insertionSort, List.orderedInsert, List.foldlM, List.headD,
      List.tail, Order.mk',
      hpure, hpure2, hbind_ok, hbind_err, Except.instMonad, Except.bind,
      Except.map, Option.map, Option.getD, List.find?,
      List.filter, List.flatMap]
    try dsimp only [Except.pure]
    try norm_num
    try simp [hdropB, htakeB, hdropE, htakeE, BacktestEngine.run,
      BacktestEngine.replay, BacktestEngine.build_timeline, BacktestEngine.timeline_step,
      BacktestEngine.run_strategies, BacktestEngine.process_order,
      BacktestEngine.process_pending_orders, BacktestEngine.generate_result,
      BacktestEngine.portfolio_value, BacktestEngine.get_current_market_data,
      BacktestEngine.generate_order_id, BacktestEngine.execute_trade,
      buyEachBarOps, sampleBar, alistGet, alistInsert, alistAdd, alistRemove,
      List.insertionSort, List.orderedInsert, List.foldlM, List.headD,
      List.tail, Order.mk',
      hpure, hpure2, hbind_ok, hbind_err, Except.instMonad, Except.bind,
      Except.map, Option.map, Option.getD, List.find?,
      List.filter, List.flatMap]
    try dsimp only [Except.pure]
    try norm_num
  have e2 : BacktestEngine.run (buyEachBarOps 1)
        [("BTCUSDT", [sampleBar "BTCUSDT" 1000 100]),
         ("ETHUSDT", [sampleBar "ETHUSDT" 1000 10])]
        ["ETHUSDT", "BTCUSDT"] 0 2000 [("USDT", 10000)] 0 0
        [("BTCUSDT", []), ("ETHUSDT", [])] []
      = .ok { start_time := 0, end_time := 1000,
              initial_balance := [("USDT", 10000)],
              final_balance := [("USDT", 9890), ("ETH", 1), ("BTC", 1)],
              initial_value := 10000, final_value := 10000,
              profit := 0, profit_percentage := 0,
              trades := [
                { id := "trade-" ++ toString 1, symbol := "ETHUSDT",
                  price := 10, quantity := 1, timestamp := 1000,
                  order_id := "backtest-" ++ toString 1, side := OrderSide.Buy },
                { id := "trade-" ++ toString 2, symbol := "BTCUSDT",
                  price := 100, quantity := 1, timestamp := 1000,
                  order_id := "backtest-" ++ toString 2, side := OrderSide.Buy }],
              fee_paid := 0 } := by
    try simp [hdropB, htakeB, hdropE, htakeE, BacktestEngine.run,
      BacktestEngine.replay, BacktestEngine.build_timeline, BacktestEngine.timeline_step,
      BacktestEngine.run_strategies, BacktestEngine.process_order,
      BacktestEngine.process_pending_orders, BacktestEngine.generate_result,
      BacktestEngine.portfolio_value, BacktestEngine.get_current_market_data,
      BacktestEngine.generate_order_id, BacktestEngine.execute_trade,
      buyEachBarOps, sampleBar, alistGet, alistInsert, alistAdd, alistRemove,
      List.insertionSort, List.orderedInsert, List.foldlM, List.headD,
      List.tail, Order.mk',
      hpure, hpure2, hbind_ok, hbind_err, Except.instMonad, Except.bind,
      Except.map, Option.map, Option.getD, List.find?,
      List.filter, List.flatMap]
    try dsimp only [Except.pure]
    try norm_num
    try simp [hdropB, htakeB, hdropE, htakeE, BacktestEngine.run,
      BacktestEngine.replay, BacktestEngine.build_timeline, BacktestEngine.timeline_step,
      BacktestEngine.run_strategies, BacktestEngine.process_order,
      BacktestEngine.process_pending_orders, BacktestEngine.generate_result,
      BacktestEngine.portfolio_value, BacktestEngine.get_current_market_data,
      BacktestEngine.generate_order_id, BacktestEngine.execute_trade,
      buyEachBarOps, sampleBar, alistGet, alistInsert, alistAdd, alistRemove,
      List.insertionSort, List.orderedInsert, List.foldlM, List.headD,
      List.tail, Order.mk',
      hpure, hpure2, hbind_ok, hbind_err, Except.instMonad, Except.bind,
      Except.map, Option.map, Option.getD, List.find?,
      List.filter, List.flatMap]
    try dsimp only [Except.pure]
    try norm_num
    try simp [hdropB, htakeB, hdropE, htakeE, BacktestEngine.run,
      BacktestEngine.replay, BacktestEngine.build_timeline, BacktestEngine.timeline_step,
      BacktestEngine.run_strategies, BacktestEngine.process_order,
      BacktestEngine.process_pending_orders, BacktestEngine.generate_result,
      BacktestEngine.portfolio_value, BacktestEngine.get_current_market_data,
      BacktestEngine.generate_order_id, BacktestEngine.execute_trade,
      buyEachBarOps, sampleBar, alistGet, alistInsert, alistAdd, alistRemove,
      List.insertionSort, List.orderedInsert, List.foldlM, List.headD,
      List.tail, Order.mk',
      hpure, hpure2, hbind_ok, hbind_err, Except.instMonad, Except.bind,
      Except.map, Option.map, Option.getD, List.find?,
      List.filter, List.flatMap]
    try dsimp only [Except.pure]
    try norm_num
    try simp [hdropB, htakeB, hdropE, htakeE, BacktestEngine.run,
      BacktestEngine.replay, BacktestEngine.build_timeline, BacktestEngine.timeline_step,
      BacktestEngine.run_strategies, BacktestEngine.process_order,
      BacktestEngine.process_pending_orders, BacktestEngine.generate_result,
      BacktestEngine.portfolio_value, BacktestEngine.get_current_market_data,
      BacktestEngine.generate_order_id, BacktestEngine.execute_trade,
      buyEachBarOps, sampleBar, alistGet, alistInsert, alistAdd, alistRemove,
      List.insertionSort, List.orderedInsert, List.foldlM, List.headD,
      List.tail, Order.mk',
      hpure, hpure2, hbind_ok, hbind_err, Except.instMonad, Except.bind,
      Except.map, Option.map, Option.getD, List.find?,
      List.filter, List.flatMap]
    try dsimp only [Except.pure]
    try norm_num
  intro h
  rw [e1, e2] at h
  have h2 := congrArg
    (Except.map (fun r => r.trades.map (fun t => t.symbol))) h
  simp [Except.map] at h2

theorem build_timeline_symbol_order_invariant
    (market_data : List (String × List MarketData))
    (so1 so2 : List String) (start_time end_time : ℤ)
    (hperm : so1.Perm so2)
    (hties : ∀ a ∈ so1.flatMap
        (fun s => ((alistGet market_data s).getD []).map
          (fun d => (d.timestamp, s))),
      ∀ b ∈ so1.flatMap
        (fun s => ((alistGet market_data s).getD []).map
          (fun d => (d.timestamp, s))),
      a.1 = b.1 → a.2 = b.2) :
    BacktestEngine.build_timeline market_data so1 start_time end_time
      = BacktestEngine.build_timeline market_data so2 start_time end_time := by
  haveI : IsTotal (ℤ × String) (fun a b => a.1 ≤ b.1) :=
    ⟨fun a b => le_total a.1 b.1⟩
  haveI : IsTrans (ℤ × String) (fun a b : ℤ × String => a.1 ≤ b.1) :=
    ⟨fun a b c hab hbc => le_trans hab hbc⟩
  haveI : IsAntisymm (ℤ × String) (fun a b => a.1 < b.1 ∨ a = b) := by
    refine ⟨fun a b h1 h2 => ?_⟩
    rcases h1 with h1 | h1
    · rcases h2 with h2 | h2
      · exact absurd h2 (lt_asymm h1)
      · exact h2.symm
    · exact h1
  have hraw : (so1.flatMap (fun s => ((alistGet market_data s).getD []).map
        (fun d => (d.timestamp, s)))).Perm
      (so2.flatMap (fun s => ((alistGet market_data s).getD []).map
        (fun d => (d.timestamp, s)))) :=
    hperm.flatMap_right _
  have hps : (List.insertionSort (fun a b => a.1 ≤ b.1)
        (so1.flatMap (fun s => ((alistGet market_data s).getD []).map
          (fun d => (d.timestamp, s))))).Perm
      (List.insertionSort (fun a b => a.1 ≤ b.1)
        (so2.flatMap (fun s => ((alistGet market_data s).getD []).map
          (fun d => (d.timestamp, s))))) :=
    (List.perm_insertionSort _ _).trans
      (hraw.trans (List.perm_insertionSort _ _).symm)
  have hstrict : ∀ (l : List (ℤ × String)),
      l.Perm (so1.flatMap (fun s => ((alistGet market_data s).getD []).map
        (fun d => (d.timestamp, s)))) →
      l.Sorted (fun a b => a.1 ≤ b.1) →
      l.Sorted (fun a b => a.1 < b.1 ∨ a = b) := by
    intro l hp hsort
    refine hsort.imp_of_mem ?_
    intro a b ha hb hab
    rcases lt_or_eq_of_le hab with h | h
    · exact Or.inl h
    · refine Or.inr ?_
      have hsym : a.2 = b.2 :=
        hties a (hp.subset ha) b (hp.subset hb) h
      exact Prod.ext h hsym
  have heq : List.insertionSort (fun a b => a.1 ≤ b.1)
        (so1.flatMap (fun s => ((alistGet market_data s).getD []).map
          (fun d => (d.timestamp, s))))
      = List.insertionSort (fun a b => a.1 ≤ b.1)
        (so2.flatMap (fun s => ((alistGet market_data s).getD []).map
          (fun d => (d.timestamp, s)))) :=
    List.eq_of_perm_of_sorted hps
      (hstrict _ (List.perm_insertionSort _ _) (List.sorted_insertionSort _ _))
      (hstrict _ ((List.perm_insertionSort _ _).trans hraw.symm)
        (List.sorted_insertionSort _ _))
  unfold BacktestEngine.build_timeline
  dsimp only
  rw [heq]

/-- engine.rs `process_order`: a Market order never rests, so the
resting-order map is unchanged on success. -/
lemma process_order_market_preserves_orders
    (market_data : List (String × List MarketData)) (fee_rate slippage : ℚ)
    (st : EngineState) (o : Order) (time : ℤ) (st' : EngineState)
    (hmk : o.order_type = OrderType.Market)
    (h : BacktestEngine.process_order market_data fee_rate slippage st o time
      = .ok st') :
    st'.orders = st.orders := by
  simp only [BacktestEngine.process_order, BacktestEngine.generate_order_id,
    hmk] at h
  split at h
  · exact Except.noConfusion h
  · split at h
    · exact Except.noConfusion h
    · cases h
      rfl

lemma foldlM_process_order_market_preserves_orders
    (market_data : List (String × List MarketData)) (fee_rate slippage : ℚ)
    (time : ℤ) :
    ∀ (os : List Order) (st st' : EngineState),
    (∀ o ∈ os, o.order_type = OrderType.Market) →
    os.foldlM (fun st o => BacktestEngine.process_order market_data fee_rate
      slippage st o time) st = .ok st' →
    st'.orders = st.orders := by
  intro os
  induction os with
  | nil =>
      intro st st' _ h
      simp only [List.foldlM_nil] at h
      cases h
      rfl
  | cons o rest ih =>
      intro st st' hall h
      rw [List.foldlM_cons] at h
      cases hpo : BacktestEngine.process_order market_data fee_rate slippage
          st o time with
      | error e =>
          rw [hpo] at h
          exact Except.noConfusion h
      | ok st1 =>
          rw [hpo] at h
          have h1 : st1.orders = st.orders :=
            process_order_market_preserves_orders market_data fee_rate slippage
              st o time st1 (hall o (List.mem_cons_self o rest)) hpo
          have h2 : st'.orders = st1.orders :=
            ih st1 st' (fun o' ho' => hall o' (List.mem_cons_of_mem o ho')) h
          rw [h2, h1]

lemma run_strategies_preserves_orders {σ : Type} (ops : StrategyOps σ)
    (market_data : List (String × List MarketData)) (fee_rate slippage : ℚ)
    (current_data : MarketData) (time : ℤ)
    (hmk : ∀ s s' os, ops.get_orders s = .ok (s', os) →
      ∀ o ∈ os, o.order_type = OrderType.Market) :
    ∀ (strategies : List σ) (st : EngineState) (out : List σ × EngineState),
    BacktestEngine.run_strategies ops market_data fee_rate slippage
      current_data time strategies st = .ok out →
    out.2.orders = st.orders := by
  intro strategies
  induction strategies with
  | nil =>
      intro st out h
      simp only [BacktestEngine.run_strategies] at h
      cases h
      rfl
  | cons s rest ih =>
      intro st out h
      rw [BacktestEngine.run_strategies] at h
      cases hu : ops.update s current_data with
      | error e => rw [hu] at h; exact Except.noConfusion h
      | ok s1 =>
          rw [hu] at h
          dsimp only at h
          cases hg : ops.get_orders s1 with
          | error e => rw [hg] at h; exact Except.noConfusion h
          | ok p =>
              rw [hg] at h
              obtain ⟨s2, new_orders⟩ := p
              dsimp only at h
              cases hf : new_orders.foldlM
                  (fun st o => BacktestEngine.process_order market_data
                    fee_rate slippage st o time) st with
              | error e => rw [hf] at h; exact Except.noConfusion h
              | ok st1 =>
                  rw [hf] at h
                  dsimp only at h
                  cases hr : BacktestEngine.run_strategies ops market_data
                      fee_rate slippage current_data time rest st1 with
                  | error e => rw [hr] at h; exact Except.noConfusion h
                  | ok q =>
                      rw [hr] at h
                      obtain ⟨rest1, st2⟩ := q
                      dsimp only at h
                      cases h
                      have h1 : st1.orders = st.orders :=
                        foldlM_process_order_market_preserves_orders market_data
                          fee_rate slippage time new_orders st st1
                          (hmk s1 s2 new_orders hg) hf
                      have h2 : (rest1, st2).2.orders = st1.orders :=
                        ih st1 (rest1, st2) hr
                      simpa [h1] using h2

lemma process_pending_orders_of_empty
    (market_data : List (String × List MarketData)) (fee_rate : ℚ)
    (time : ℤ) :
    ∀ (order_ids : List String) (st : EngineState), st.orders = [] →
    BacktestEngine.process_pending_orders market_data fee_rate order_ids st time
      = .ok st := by
  intro order_ids
  induction order_ids with
  | nil =>
      intro st _
      rfl
  | cons i rest ih =>
      intro st hst
      have hget : alistGet st.orders i = none := by
        rw [hst]; rfl
      have hstep : BacktestEngine.process_pending_orders market_data fee_rate
          (i :: rest) st time
          = BacktestEngine.process_pending_orders market_data fee_rate rest st
            time := by
        simp only [BacktestEngine.process_pending_orders, List.foldlM_cons,
          hget]
        rfl
      rw [hstep, ih st hst]

lemma timeline_fold_accSim {σ : Type} (ops : StrategyOps σ)
    (market_data : List (String × List MarketData)) (fee_rate slippage : ℚ)
    (hmk : ∀ s s' os, ops.get_orders s = .ok (s', os) →
      ∀ o ∈ os, o.order_type = OrderType.Market) :
    ∀ (tl : List (ℤ × String)) (strategies : List σ) (st : EngineState)
      (t : ℤ) (e1 e2 : List (List String)), st.orders = [] →
    accSim
      (tl.foldlM (BacktestEngine.timeline_step ops market_data fee_rate
        slippage) (strategies, st, t, e1))
      (tl.foldlM (BacktestEngine.timeline_step ops market_data fee_rate
        slippage) (strategies, st, t, e2)) := by
  intro tl
  induction tl with
  | nil =>
      intro strategies st t e1 e2 hst
      simp only [List.foldlM_nil]
      exact ⟨rfl, rfl, rfl, hst⟩
  | cons entry rest ih =>
      intro strategies st t e1 e2 hst
      obtain ⟨time, symbol⟩ := entry
      rw [List.foldlM_cons, List.foldlM_cons]
      have hstep : ∀ (e : List (List String)),
          BacktestEngine.timeline_step ops market_data fee_rate slippage
            (strategies, st, t, e) (time, symbol)
          = match BacktestEngine.get_current_market_data market_data symbol
              time with
            | .error err => .error err
            | .ok current_data =>
                match BacktestEngine.run_strategies ops market_data fee_rate
                    slippage current_data time strategies st with
                | .error err => .error err
                | .ok (strategies1, st1) =>
                    match BacktestEngine.process_pending_orders market_data
                        fee_rate (e.headD []) st1 time with
                    | .error err => .error err
                    | .ok st2 => .ok (strategies1, st2, time, e.tail) := by
        intro e
        rfl
      rw [hstep e1, hstep e2]
      cases hmd : BacktestEngine.get_current_market_data market_data symbol
          time with
      | error err =>
          dsimp only
          exact rfl
      | ok current_data =>
          dsimp only
          cases hrs : BacktestEngine.run_strategies ops market_data fee_rate
              slippage current_data time strategies st with
          | error err =>
              dsimp only
              exact rfl
          | ok p =>
              obtain ⟨strategies1, st1⟩ := p
              dsimp only
              have hst1 : st1.orders = [] := by
                have := run_strategies_preserves_orders ops market_data
                  fee_rate slippage current_data time hmk strategies st
                  (strategies1, st1) hrs
                simpa [hst] using this
              rw [process_pending_orders_of_empty market_data fee_rate time
                (e1.headD []) st1 hst1,
                process_pending_orders_of_empty market_data fee_rate time
                (e2.headD []) st1 hst1]
              dsimp only
              exact ih strategies1 st1 time e1.tail e2.tail hst1

lemma replay_pending_enums_irrelevant {σ : Type} (ops : StrategyOps σ)
    (market_data : List (String × List MarketData)) (start_time : ℤ)
    (initial_balance : List (String × ℚ)) (fee_rate slippage : ℚ)
    (strategies : List σ) (e1 e2 : List (List String))
    (timeline : List (ℤ × String))
    (hmk : ∀ s s' os, ops.get_orders s = .ok (s', os) →
      ∀ o ∈ os, o.order_type = OrderType.Market) :
    BacktestEngine.replay ops market_data start_time initial_balance fee_rate
      slippage strategies e1 timeline
      = BacktestEngine.replay ops market_data start_time initial_balance
        fee_rate slippage strategies e2 timeline := by
  have hsim := timeline_fold_accSim ops market_data fee_rate slippage hmk
    timeline strategies
    { current_balance := initial_balance, orders := [], trades := [],
      order_id_counter := 0 }
    start_time e1 e2 rfl
  unfold BacktestEngine.replay
  dsimp only
  cases h1 : timeline.foldlM
      (BacktestEngine.timeline_step ops market_data fee_rate slippage)
      (strategies,
        { current_balance := initial_balance, orders := [], trades := [],
          order_id_counter := 0 }, start_time, e1) with
  | error a =>
      cases h2 : timeline.foldlM
          (BacktestEngine.timeline_step ops market_data fee_rate slippage)
          (strategies,
            { current_balance := initial_balance, orders := [], trades := [],
              order_id_counter := 0 }, start_time, e2) with
      | error b =>
          rw [h1, h2] at hsim
          dsimp only [accSim] at hsim
          rw [hsim]
      | ok b =>
          rw [h1, h2] at hsim
          exact absurd hsim (fun h => h)
  | ok a =>
      cases h2 : timeline.foldlM
          (BacktestEngine.timeline_step ops market_data fee_rate slippage)
          (strategies,
            { current_balance := initial_balance, orders := [], trades := [],
              order_id_counter := 0 }, start_time, e2) with
      | error b =>
          rw [h1, h2] at hsim
          exact absurd hsim (fun h => h)
      | ok b =>
          rw [h1, h2] at hsim
          obtain ⟨a1, a2, a3, a4⟩ := a
          obtain ⟨b1, b2, b3, b4⟩ := b
          obtain ⟨hs1, hs2, hs3, _⟩ := hsim
          dsimp only at hs1 hs2 hs3 ⊢
          rw [hs2, hs3]

lemma marketBuyEachBarOps_market_only (qty : ℚ) :
    ∀ s s' os, (marketBuyEachBarOps qty).get_orders s = .ok (s', os) →
      ∀ o ∈ os, o.order_type = OrderType.Market := by
  intro s s' os h o ho
  simp only [marketBuyEachBarOps] at h
  cases h
  simp only [List.mem_map] at ho
  obtain ⟨p, _, hp⟩ := ho
  rw [← hp]
  rfl

/-- C8 (amended): `run` is deterministic once its two `HashMap`-iteration
degrees of freedom are immaterial — any permutation `so2` of the
market-data key enumeration `so1`, and ANY two resting-order key
enumeration streams `e1, e2`, produce the same result — provided (i) no
two loaded bars of different symbols share a timestamp (the stable
timestamp sort then fixes the timeline regardless of key order), and
(ii) every order the strategies emit is a Market order, so no order ever
rests and the resting-order iteration at engine.rs:251 touches an empty
map. Order ids come from the monotonic counter (`backtest-<n>`), trade
ids and timestamps from the timeline; no wall clock is read. -/
theorem run_deterministic_without_ties_or_resting {σ : Type}
    (ops : StrategyOps σ) (market_data : List (String × List MarketData))
    (so1 so2 : List String) (start_time end_time : ℤ)
    (initial_balance : List (String × ℚ)) (fee_rate slippage : ℚ)
    (strategies : List σ) (e1 e2 : List (List String))
    (hperm : so1.Perm so2)
    (hties : ∀ a ∈ so1.flatMap
        (fun s => ((alistGet market_data s).getD []).map
          (fun d => (d.timestamp, s))),
      ∀ b ∈ so1.flatMap
        (fun s => ((alistGet market_data s).getD []).map
          (fun d => (d.timestamp, s))),
      a.1 = b.1 → a.2 = b.2)
    (hmk : ∀ s s' os, ops.get_orders s = .ok (s', os) →
      ∀ o ∈ os, o.order_type = OrderType.Market) :
    BacktestEngine.run ops market_data so1 start_time end_time initial_balance
      fee_rate slippage strategies e1
      = BacktestEngine.run ops market_data so2 start_time end_time
        initial_balance fee_rate slippage strategies e2 := by
  unfold BacktestEngine.run
  rw [build_timeline_symbol_order_invariant market_data so1 so2 start_time
    end_time hperm hties]
  exact replay_pending_enums_irrelevant ops market_data start_time
    initial_balance fee_rate slippage strategies e1 e2 _ hmk

/-- Witness: two runs over BTCUSDT/ETHUSDT bars at distinct timestamps,
with swapped symbol orders and different pending enumerations, coincide. -/
theorem run_deterministic_without_ties_or_resting_witness :
    (["BTCUSDT", "ETHUSDT"] : List String).Perm ["ETHUSDT", "BTCUSDT"]
    ∧ (∀ a ∈ (["BTCUSDT", "ETHUSDT"] : List String).flatMap
        (fun s => ((alistGet
          [("BTCUSDT", [sampleBar "BTCUSDT" 100 10]),
           ("ETHUSDT", [sampleBar "ETHUSDT" 200 5])] s).getD []).map
          (fun d => (d.timestamp, s))),
      ∀ b ∈ (["BTCUSDT", "ETHUSDT"] : List String).flatMap
        (fun s => ((alistGet
          [("BTCUSDT", [sampleBar "BTCUSDT" 100 10]),
           ("ETHUSDT", [sampleBar "ETHUSDT" 200 5])] s).getD []).map
          (fun d => (d.timestamp, s))),
      a.1 = b.1 → a.2 = b.2)
    ∧ (∀ s s' os, (marketBuyEachBarOps 1).get_orders s = .ok (s', os) →
        ∀ o ∈ os, o.order_type = OrderType.Market)
    ∧ BacktestEngine.run (marketBuyEachBarOps 1)
        [("BTCUSDT", [sampleBar "BTCUSDT" 100 10]),
         ("ETHUSDT", [sampleBar "ETHUSDT" 200 5])]
        ["BTCUSDT", "ETHUSDT"] 0 1000 [("USDT", 1000)] 0 0
        [("BTCUSDT", [])] []
      = BacktestEngine.run (marketBuyEachBarOps 1)
        [("BTCUSDT", [sampleBar "BTCUSDT" 100 10]),
         ("ETHUSDT", [sampleBar "ETHUSDT" 200 5])]
        ["ETHUSDT", "BTCUSDT"] 0 1000 [("USDT", 1000)] 0 0
        [("BTCUSDT", [])] [["stray-id"]] :=
  ⟨List.Perm.swap "ETHUSDT" "BTCUSDT" [],
   by decide,
   marketBuyEachBarOps_market_only 1,
   run_deterministic_without_ties_or_resting (marketBuyEachBarOps 1)
     [("BTCUSDT", [sampleBar "BTCUSDT" 100 10]),
      ("ETHUSDT", [sampleBar "ETHUSDT" 200 5])]
     ["BTCUSDT", "ETHUSDT"] ["ETHUSDT", "BTCUSDT"] 0 1000 [("USDT", 1000)]
     0 0 [("BTCUSDT", [])] [] [["stray-id"]]
     (List.Perm.swap "ETHUSDT" "BTCUSDT" [])
     (by decide)
     (marketBuyEachBarOps_market_only 1)⟩

end XQuant
